import Mathlib

/-!
Verification development for the setu.js HTTP client (src/nodeAdapter.ts,
src/browserAdapter.ts, src/utils.ts).  The JavaScript source is shallowly
embedded: JS objects become association lists with exact-case keys, JS
strings become `String`, machine behaviour that the repository does not
define (the platform JSON parser) is passed in as an explicit function
parameter, and the event-driven attempt lifecycle becomes an explicit
state machine stepped over event lists.
-/

namespace Setu

/-- JSON values, the model of JavaScript structured values used for request
bodies, query-parameter values and decoded response data. -/
inductive Json where
  | null
  | bool (b : Bool)
  | num (n : Int)
  | str (s : String)
  | arr (xs : List Json)
  | obj (fields : List (String × Json))
deriving Repr

/-- Escape a string for inclusion in a JSON document (the escapes produced
by `JSON.stringify` for quote, backslash and newline; other control
characters are not modelled since no embedded value contains them). -/
def jsonEscapeChars : List Char → List Char
  | [] => []
  | c :: rest =>
    if c = '"' then '\\' :: '"' :: jsonEscapeChars rest
    else if c = '\\' then '\\' :: '\\' :: jsonEscapeChars rest
    else if c = '\n' then '\\' :: 'n' :: jsonEscapeChars rest
    else c :: jsonEscapeChars rest

/-- A JSON string literal: quotes around the escaped body. -/
def jsonQuote (s : String) : String :=
  "\"" ++ String.mk (jsonEscapeChars s.data) ++ "\""

mutual

/-- Model of `JSON.stringify` over `Json` values (always succeeds: the
inductive `Json` type has no cycles, so the `try/catch` around
`JSON.stringify` in nodeAdapter.ts line 96-107 never takes its catch arm
for values representable here). -/
def Json.stringify : Json → String
  | .null => "null"
  | .bool true => "true"
  | .bool false => "false"
  | .num n => toString n
  | .str s => jsonQuote s
  | .arr xs => "[" ++ stringifyArr xs ++ "]"
  | .obj fs => "\x7b" ++ stringifyObj fs ++ "\x7d"

/-- Comma-separated renderings of the elements of a JSON array. -/
def stringifyArr : List Json → String
  | [] => ""
  | [x] => Json.stringify x
  | x :: xs => Json.stringify x ++ "," ++ stringifyArr xs

/-- Comma-separated `"key":value` renderings of the fields of a JSON object. -/
def stringifyObj : List (String × Json) → String
  | [] => ""
  | [(k, v)] => jsonQuote k ++ ":" ++ Json.stringify v
  | (k, v) :: fs => jsonQuote k ++ ":" ++ Json.stringify v ++ "," ++ stringifyObj fs

end

mutual

/-- Model of JavaScript `String(value)` conversion for the values `Json`
can represent (`String(null) = "null"`, arrays join their elements with
commas rendering `null` elements as the empty string, plain objects render
as `[object Object]`). -/
def jsString : Json → String
  | .null => "null"
  | .bool true => "true"
  | .bool false => "false"
  | .num n => toString n
  | .str s => s
  | .arr xs => jsStringArr xs
  | .obj _ => "[object Object]"

/-- `Array.prototype.toString`: elements joined with commas, `null`
elements rendered as the empty string. -/
def jsStringArr : List Json → String
  | [] => ""
  | [x] => (match x with | .null => "" | y => jsString y)
  | x :: xs => (match x with | .null => "" | y => jsString y) ++ "," ++ jsStringArr xs

end

/-! ## Strings: case-insensitive substring search, UTF-8, form encoding -/

/-- `s.includes(pat)` — case-sensitive substring containment, the model of
JavaScript `String.prototype.includes`. -/
def strContains (s pat : String) : Bool :=
  decide (pat.data <:+: s.data)

/-- Case-insensitive substring containment for a pattern that is already
lowercase — the model of `/pat/i.test(s)` for a literal pattern. -/
def containsCI (s pat : String) : Bool :=
  decide (pat.data <:+: s.data.map Char.toLower)

/-- UTF-8 byte length of one character. -/
def utf8CharLen (c : Char) : Nat :=
  if c.toNat < 128 then 1
  else if c.toNat < 2048 then 2
  else if c.toNat < 65536 then 3
  else 4

/-- Model of `Buffer.byteLength(s, 'utf8')`: the UTF-8 byte length of a
string. -/
def utf8Length (s : String) : Nat :=
  s.data.foldl (fun n c => n + utf8CharLen c) 0

/-- The UTF-8 bytes of one character. -/
def utf8Bytes (c : Char) : List Nat :=
  let n := c.toNat
  if n < 128 then [n]
  else if n < 2048 then [192 + n / 64, 128 + n % 64]
  else if n < 65536 then [224 + n / 4096, 128 + (n / 64) % 64, 128 + n % 64]
  else [240 + n / 262144, 128 + (n / 4096) % 64, 128 + (n / 64) % 64, 128 + n % 64]

/-- Value of a hexadecimal digit character, if it is one. -/
def hexDigitVal (c : Char) : Option Nat :=
  if 48 ≤ c.toNat ∧ c.toNat ≤ 57 then some (c.toNat - 48)
  else if 65 ≤ c.toNat ∧ c.toNat ≤ 70 then some (c.toNat - 55)
  else if 97 ≤ c.toNat ∧ c.toNat ≤ 102 then some (c.toNat - 87)
  else none

/-- Uppercase hexadecimal digit for a value below 16. -/
def hexDigitChar (n : Nat) : Char :=
  if n < 10 then Char.ofNat (48 + n) else Char.ofNat (55 + n)

/-- One character of `application/x-www-form-urlencoded` serialization
(what `URLSearchParams.toString` applies): alphanumerics and `*-._` kept,
space becomes `+`, everything else percent-encoded byte-wise. -/
def formEncodeChar (c : Char) : List Char :=
  if c.isAlphanum ∨ c = '*' ∨ c = '-' ∨ c = '.' ∨ c = '_' then [c]
  else if c = ' ' then ['+']
  else (utf8Bytes c).foldr
    (fun b acc => '%' :: hexDigitChar (b / 16) :: hexDigitChar (b % 16) :: acc) []

/-- Form-encode a whole string. -/
def formEncode (s : String) : String :=
  String.mk (s.data.foldr (fun c acc => formEncodeChar c ++ acc) [])

/-- Lenient form decoding (what `URLSearchParams` parsing applies): `+`
becomes space, `%XX` becomes the byte `XX`, malformed percent sequences are
kept verbatim.  Multi-byte UTF-8 percent sequences are decoded byte-wise
(all embedded inputs are ASCII). -/
def formDecodeChars : List Char → List Char
  | [] => []
  | '+' :: rest => ' ' :: formDecodeChars rest
  | '%' :: h :: l :: rest =>
    match hexDigitVal h, hexDigitVal l with
    | some a, some b => Char.ofNat (16 * a + b) :: formDecodeChars rest
    | _, _ => '%' :: formDecodeChars (h :: l :: rest)
  | c :: rest => c :: formDecodeChars rest

/-- Form-decode a whole string. -/
def formDecode (s : String) : String :=
  String.mk (formDecodeChars s.data)

/-- `s.startsWith(pat)` modelled over character lists (kernel-friendly,
unlike `String.startsWith`). -/
def strStartsWith (s pat : String) : Bool :=
  pat.data.isPrefixOf s.data

/-- ASCII uppercase of one character, the model of `toUpperCase` for the
method names that occur here. -/
def charUpper (c : Char) : Char :=
  if 97 ≤ c.toNat ∧ c.toNat ≤ 122 then Char.ofNat (c.toNat - 32) else c

/-- Model of `String.prototype.toUpperCase` (ASCII). -/
def jsToUpper (s : String) : String :=
  String.mk (s.data.map charUpper)

/-- JavaScript whitespace for `String.prototype.trim` (the characters that
occur in the embedded inputs; the full Unicode white-space set is not
needed). -/
def jsIsWs (c : Char) : Bool :=
  c = ' ' ∨ c = '\t' ∨ c = '\n' ∨ c = '\r'

/-- Model of `String.prototype.trim`: strip leading and trailing
whitespace. -/
def jsTrim (s : String) : String :=
  String.mk (((s.data.dropWhile jsIsWs).reverse.dropWhile jsIsWs).reverse)

/-! ## Header maps

JavaScript header objects are modelled as association lists with
exact-case string keys — property access (`headers['Content-Type']`) is
exact-case in JS, so the embedding must be too. -/

/-- Exact-case lookup, the model of JS property access on a header object. -/
def headerLookup (hs : List (String × String)) (k : String) : Option String :=
  hs.lookup k

/-- Property assignment on a JS object: replace the value at an existing
key (keys of a JS object are unique, so at most one entry matches) or
append a new entry. -/
def setHeader : List (String × String) → String → String → List (String × String)
  | [], k, v => [(k, v)]
  | (k', v') :: rest, k, v =>
    if k' = k then (k, v) :: rest else (k', v') :: setHeader rest k v

/-- Model of `mergeHeaders` (src/utils.ts lines 26-31): object spread
`{...defaults, ...user}` — user entries overwrite same-keyed defaults. -/
def mergeHeaders (defaultHeaders userHeaders : List (String × String)) :
    List (String × String) :=
  userHeaders.foldl (fun acc kv => setHeader acc kv.1 kv.2) defaultHeaders

/-- JS string truthiness of an optional string: `undefined` and `''` are
falsy. -/
def truthyStr : Option String → Bool
  | none => false
  | some s => s ≠ ""

/-! ## Query strings -/

/-- Split a character list at every occurrence of a separator. -/
def splitOnChar (sep : Char) : List Char → List (List Char)
  | [] => [[]]
  | c :: rest =>
    match splitOnChar sep rest with
    | [] => if c = sep then [[], []] else [[c]]
    | h :: t => if c = sep then [] :: h :: t else (c :: h) :: t

/-- One segment of a query string: key and value split at the first `=`,
both form-decoded (the parsing `new URLSearchParams(string)` performs). -/
def parsePair (seg : List Char) : String × String :=
  let k := seg.takeWhile (· ≠ '=')
  let rest := seg.dropWhile (· ≠ '=')
  (formDecode (String.mk k), formDecode (String.mk (rest.drop 1)))

/-- Parse a query string into its ordered key-value pairs, the model of
`new URLSearchParams(queryString)`: a leading `?` is stripped, empty
segments are skipped. -/
def parseQuery (s : String) : List (String × String) :=
  let cs := match s.data with
    | '?' :: rest => rest
    | cs => cs
  ((splitOnChar '&' cs).filter (· ≠ [])).map parsePair

/-- Serialize ordered key-value pairs, the model of
`URLSearchParams.toString`. -/
def serializeQuery (pairs : List (String × String)) : String :=
  String.intercalate "&" (pairs.map fun kv => formEncode kv.1 ++ "=" ++ formEncode kv.2)

/-- Drop every entry with the given key. -/
def removeKey : List (String × String) → String → List (String × String)
  | [], _ => []
  | (k', v') :: rest, k =>
    if k' = k then removeKey rest k else (k', v') :: removeKey rest k

/-- The ordered sublist of entries with the given key. -/
def keyEntries : List (String × String) → String → List (String × String)
  | [], _ => []
  | (k', v') :: rest, k =>
    if k' = k then (k', v') :: keyEntries rest k else keyEntries rest k

/-- `URLSearchParams.set(k, v)`: overwrite the first entry with key `k`
(dropping any later entries with that key), or append if the key is new. -/
def uspSet : List (String × String) → String → String → List (String × String)
  | [], k, v => [(k, v)]
  | (k', v') :: rest, k, v =>
    if k' = k then (k, v) :: removeKey rest k
    else (k', v') :: uspSet rest k v

/-- Value conversion inside `buildQuery` (src/utils.ts lines 4-20):
null → empty string appended once; arrays → one appended pair per element
with `String(item)`; objects → `JSON.stringify`; other values →
`String(value)`. -/
def buildQueryPairs (ps : List (String × Json)) : List (String × String) :=
  ps.flatMap fun kv =>
    match kv.2 with
    | .null => [(kv.1, "")]
    | .arr xs => xs.map fun item => (kv.1, jsString item)
    | .obj fs => [(kv.1, Json.stringify (.obj fs))]
    | v => [(kv.1, jsString v)]

/-- Model of `buildQuery` (src/utils.ts lines 1-24): serialize the
appended pairs and prefix `?` when non-empty. -/
def buildQuery (ps : List (String × Json)) : String :=
  let q := serializeQuery (buildQueryPairs ps)
  if q = "" then "" else "?" ++ q

/-- The node backend's final query string (src/nodeAdapter.ts lines
70-74): when `config.params` is given (any object, even empty, is truthy)
the URL's existing query is *replaced* by `buildQuery(params)` with the
leading `?` stripped; otherwise the existing query is kept. -/
def nodeFinalQuery (existingQuery : String) (params : Option (List (String × Json))) :
    String :=
  match params with
  | none => existingQuery
  | some ps =>
    let q := buildQuery ps
    match q.data with
    | '?' :: rest => String.mk rest
    | _ => q

/-- Value conversion in the browser backend's parameter loop
(src/browserAdapter.ts lines 26-34): null/undefined → empty string,
`typeof value === 'object'` (arrays and objects) → `JSON.stringify`,
otherwise `String(value)`. -/
def browserParamString : Json → String
  | .null => ""
  | .arr xs => Json.stringify (.arr xs)
  | .obj fs => Json.stringify (.obj fs)
  | v => jsString v

/-- The browser backend's combined query pairs (src/browserAdapter.ts
lines 23-36): the URL's existing query is parsed and each mapping entry is
`set` into it in order. -/
def browserCombinedPairs (existing : List (String × String))
    (params : Option (List (String × Json))) : List (String × String) :=
  match params with
  | none => existing
  | some ps => ps.foldl (fun acc kv => uspSet acc kv.1 (browserParamString kv.2)) existing

/-- The browser backend's final query string for a URL whose existing
query part is `existingQuery`. -/
def browserFinalQuery (existingQuery : String) (params : Option (List (String × Json))) :
    String :=
  serializeQuery (browserCombinedPairs (parseQuery existingQuery) params)

/-! ## Data model: configuration, responses, classified errors -/

/-- The `responseType` hint of a request. -/
inductive ResponseType where
  | json | text | blob | arraybuffer | stream | document
deriving DecidableEq, Repr

/-- Request bodies, a tagged union over the runtime type tests the two
adapters perform (`instanceof FormData`, `instanceof Buffer`,
`typeof body === 'string'`, `typeof body === 'object'`, primitives).
`Date`/`RegExp` bodies are not modelled; no claim mentions them.  The
`form` payload is the multipart boundary of the form's generated
content-type header; the `buffer` payload is the UTF-8 text standing for
the raw bytes. -/
inductive BodyVal where
  | form (boundary : String)
  | buffer (raw : String)
  | str (s : String)
  | obj (j : Json)
  | num (n : Int)
  | bool (b : Bool)
deriving Repr

/-- Per-request configuration (`HttpRequestConfig`): exactly the fields the
two adapters read.  `none` stands for a JS field that is absent/undefined.
`signalPresent` records whether a cancellation signal was supplied. -/
structure Config where
  method : Option String := none
  headers : Option (List (String × String)) := none
  body : Option BodyVal := none
  params : Option (List (String × Json)) := none
  timeout : Option Nat := none
  retry : Option Nat := none
  retryDelay : Option Nat := none
  responseType : Option ResponseType := none
  validateStatus : Option (Nat → Bool) := none
  signalPresent : Bool := false

/-- Decoded response data: a parsed JSON value, UTF-8 text, a raw buffer
passed through unmodified (UTF-8 text standing for the bytes), or the
live response stream handle. -/
inductive RespData where
  | json (j : Json)
  | text (s : String)
  | buffer (raw : String)
  | stream
deriving Repr

/-- `HttpResponse`: status, headers, decoded data, and (browser backend
only) an optional filename extracted from Content-Disposition. -/
structure HttpResponseM where
  status : Nat
  headers : List (String × String)
  data : RespData
  filename : Option String := none
deriving Repr

/-- The observable part of a `buildError` result (src/nodeAdapter.ts lines
329-344, src/browserAdapter.ts lines 252-267): message, machine code
(`none` models JS `null`, the status-validation failure), the attached
response when one was received, and the status when nonzero.  The `config`
and `request` fields carry opaque handles and are not modelled. -/
structure ClassifiedError where
  message : String
  code : Option String
  response : Option HttpResponseM
  status : Option Nat
deriving Repr

/-- The default status validation predicate both adapters fall back to:
`status >= 200 && status < 300`. -/
def defaultValidateStatus (status : Nat) : Bool :=
  decide (200 ≤ status ∧ status < 300)

/-! ## Body codec -/

/-- Result of the node backend's body-preparation block: the adjusted
header object, the bytes written to the wire (`none` when `req.end()` is
called with no body; UTF-8 text stands for the bytes), and whether the
body is a piped multipart form stream. -/
structure PreparedBody where
  headers : List (String × String)
  wire : Option String
  isForm : Bool
deriving Repr

/-- Model of the node backend's body classification (src/nodeAdapter.ts
lines 80-114).  Branch order follows the source: FormData first (its
generated headers are assigned over the merged headers), then Buffer,
string, `typeof body === 'object'` (JSON-encode; set `Content-Type` only
when the existing exact-case `Content-Type` entry is absent or falsy), and
finally other primitives via `String(body)`.  `JSON.stringify` cannot
throw on acyclic `Json` values, so the `ERR_BODY_STRINGIFY` catch arm is
unreachable in this model. -/
def nodeProcessBody (headers : List (String × String)) (body : Option BodyVal) :
    PreparedBody :=
  match body with
  | none => ⟨headers, none, false⟩
  | some (.form boundary) =>
    ⟨setHeader headers "content-type" ("multipart/form-data; boundary=" ++ boundary),
      none, true⟩
  | some (.buffer raw) =>
    ⟨setHeader headers "Content-Length" (toString (utf8Length raw)), some raw, false⟩
  | some (.str s) =>
    ⟨setHeader headers "Content-Length" (toString (utf8Length s)), some s, false⟩
  | some (.obj j) =>
    let s := Json.stringify j
    let ct := match headerLookup headers "Content-Type" with
      | some v => if v ≠ "" then v else "application/json"
      | none => "application/json"
    let h1 := setHeader headers "Content-Type" ct
    ⟨setHeader h1 "Content-Length" (toString (utf8Length s)), some s, false⟩
  | some (.num n) =>
    let s := jsString (.num n)
    ⟨setHeader headers "Content-Length" (toString (utf8Length s)), some s, false⟩
  | some (.bool b) =>
    let s := jsString (.bool b)
    ⟨setHeader headers "Content-Length" (toString (utf8Length s)), some s, false⟩

/-- The browser backend's `isJSON` test (src/browserAdapter.ts lines
81-87): body present, `typeof 'object'`, not FormData, not an array (and
not Date/RegExp, which are outside this model).  A binary buffer body also
passes these tests — `typeof` of a typed array is `'object'` and
`Array.isArray` rejects it — so the browser treats it as JSON too. -/
def browserIsJSON : Option BodyVal → Bool
  | some (.obj (Json.obj _)) => true
  | some (.buffer _) => true
  | _ => false

/-- `JSON.stringify(config.body)` as evaluated by the browser send branch
(src/browserAdapter.ts line 224) for a body its `isJSON` test accepts: a
plain object stringifies to its JSON encoding; a binary buffer body
stringifies to the index-keyed object of its bytes (the enumerable view a
typed array exposes). -/
def browserBodyJsonText : BodyVal → Option String
  | .obj j => some (Json.stringify j)
  | .buffer raw =>
    some (Json.stringify (.obj
      ((raw.data.flatMap utf8Bytes).enum.map fun bi => (toString bi.1, Json.num bi.2))))
  | _ => none

/-- The wire-visible effect of the browser backend's header and send logic
(src/browserAdapter.ts lines 14-15, 79-98 and 219-227): the ordered
`setRequestHeader` calls, the body string handed to `xhr.send` (`none` for
a bare `xhr.send()`), and whether a FormData object was sent. -/
structure BrowserWire where
  headerCalls : List (String × String)
  sent : Option String
  sentForm : Bool
deriving Repr

/-- The browser backend's `isGetLike` test (src/browserAdapter.ts lines
14-15): the method, defaulted to GET and uppercased, is GET or HEAD. -/
def isGetLikeMethod (cfg : Config) : Bool :=
  let method := jsToUpper (cfg.method.getD "GET")
  method = "GET" || method = "HEAD"

/-- Model of one browser attempt's request preparation: method defaulting
and uppercasing, the GET/HEAD test, the caller's headers set in order, the
conditional `Content-Type: application/json` call, and the four-way send
dispatch. -/
def browserPrepare (cfg : Config) : BrowserWire :=
  let isGetLike : Bool := isGetLikeMethod cfg
  let isFormData : Bool := match cfg.body with | some (.form _) => true | _ => false
  let isJSON := browserIsJSON cfg.body
  let baseCalls := cfg.headers.getD []
  let ctSet := truthyStr ((cfg.headers.getD []).lookup "Content-Type")
  let calls := baseCalls ++
    (if !isFormData && isJSON && !ctSet then [("Content-Type", "application/json")] else [])
  let sent : Option String :=
    if isGetLike then none
    else if isFormData then none
    else if isJSON then
      match cfg.body with
      | some b => browserBodyJsonText b
      | none => none
    else none
  ⟨calls, sent, !isGetLike && isFormData⟩

/-! ## Response decoding -/

/-- Model of `isBinaryContentType` (src/nodeAdapter.ts lines 13-16): the
two case-insensitive regex tests. -/
def isBinaryContentType (ct : String) : Bool :=
  (containsCI ct "application" || containsCI ct "image" || containsCI ct "audio" ||
    containsCI ct "video" || containsCI ct "octet-stream") &&
  !(containsCI ct "json" || containsCI ct "text" || containsCI ct "xml")

/-- The node backend's buffered-body decode (the `try` block of the `end`
handler, src/nodeAdapter.ts lines 157-178), with the platform JSON parser
passed in as `parse` (`none` models a `JSON.parse` throw).  `.error ()`
models the thrown parse failure caught at line 179. -/
def nodeParseData (cfg : Config) (parse : String → Option Json) (ct body : String) :
    Except Unit RespData :=
  let isBinary := cfg.responseType = some .blob ∨ cfg.responseType = some .arraybuffer ∨
    isBinaryContentType ct
  if isBinary then .ok (.buffer body)
  else if cfg.responseType = some .stream then .ok (.buffer body)
  else if strContains ct "application/json" ∨ strContains ct "application/vnd.api+json" then
    if body = "" then .ok (.json .null)
    else
      match parse body with
      | some j => .ok (.json j)
      | none => .error ()
  else .ok (.text body)

/-- Model of the node backend's `end` handler (src/nodeAdapter.ts lines
151-219) for a buffered response: content-type from the (lowercased
incoming) headers, `statusCode || 200`, decode, then status validation —
the configured predicate fully replacing the default — rejecting with a
null-coded error that carries the fully built response.  A decode throw
rejects with `ERR_PARSE` carrying the raw text.  The platform parse-error
message is abstracted to a fixed prefix. -/
def nodeEndHandler (cfg : Config) (parse : String → Option Json) (statusCode : Nat)
    (headers : List (String × String)) (body : String) :
    Except ClassifiedError HttpResponseM :=
  let ct := (headerLookup headers "content-type").getD ""
  let status := if statusCode = 0 then 200 else statusCode
  match nodeParseData cfg parse ct body with
  | .error _ =>
    .error ⟨"Failed to parse response", some "ERR_PARSE",
      some ⟨status, headers, .text body, none⟩, some status⟩
  | .ok d =>
    let response : HttpResponseM := ⟨status, headers, d, none⟩
    let validate := cfg.validateStatus.getD defaultValidateStatus
    if validate status then .ok response
    else .error ⟨"Request failed with status code " ++ toString status, none,
      some response, some status⟩

/-- Model of the node backend's response-arrival short circuit
(src/nodeAdapter.ts lines 126-132): for `responseType: 'stream'` the
attempt resolves immediately with the live stream as data — before any
body is read and without consulting `validateStatus`. -/
def nodeOnResponseHeaders (cfg : Config) (statusCode : Nat)
    (headers : List (String × String)) : Option HttpResponseM :=
  if cfg.responseType = some .stream then
    some ⟨if statusCode = 0 then 200 else statusCode, headers, .stream, none⟩
  else none

/-- The XHR response type actually configured (src/browserAdapter.ts lines
60-67): blob and arraybuffer pass through, everything else (including the
unsupported `stream` hint) behaves as text. -/
def xhrResponseType (cfg : Config) : Option ResponseType :=
  match cfg.responseType with
  | some .blob => some .blob
  | some .arraybuffer => some .arraybuffer
  | _ => some .text

/-- Model of `parseResponse` (src/browserAdapter.ts lines 278-308): blob
and arraybuffer return the raw response; binary content types
(octet-stream, pdf, or an image/audio/video prefix) return the raw text;
JSON content types return `null` for an empty or whitespace-only body and
otherwise the platform parse of the full text, a throw propagating as
`.error ()`; everything else returns the text. -/
def browserParseResponse (cfg : Config) (parse : String → Option Json)
    (ct responseText : String) : Except Unit RespData :=
  if xhrResponseType cfg = some .blob ∨ xhrResponseType cfg = some .arraybuffer then
    .ok (.buffer responseText)
  else if strContains ct "application/octet-stream" ∨ strContains ct "application/pdf" ∨
      strStartsWith ct "image/" ∨ strStartsWith ct "audio/" ∨ strStartsWith ct "video/" then
    .ok (.text responseText)
  else if strContains ct "application/json" ∨ strContains ct "application/vnd.api+json" then
    if responseText = "" ∨ jsTrim responseText = "" then .ok (.json .null)
    else
      match parse responseText with
      | some j => .ok (.json j)
      | none => .error ()
  else .ok (.text responseText)

/-- One token of a URI-component scan: a character that was not escaped,
or one byte produced by a `%XX` escape. -/
inductive UriTok where
  | raw (c : Char)
  | byte (b : Nat)
deriving Repr

/-- First phase of `decodeURIComponent`: turn `%XX` escapes into bytes,
keep other characters; a malformed escape fails the whole decode (the
function throws). -/
def uriToks : List Char → Option (List UriTok)
  | [] => some []
  | '%' :: rest =>
    match rest with
    | h :: l :: rest2 =>
      match hexDigitVal h, hexDigitVal l with
      | some a, some b => (uriToks rest2).map (.byte (16 * a + b) :: ·)
      | _, _ => none
    | _ => none
  | c :: rest => (uriToks rest).map (.raw c :: ·)

/-- Second phase of `decodeURIComponent`: decode escape-produced bytes as
UTF-8 (rejecting truncated, overlong and surrogate sequences, on which the
function throws), passing unescaped characters through. -/
def utf8DecodeToks : List UriTok → Option (List Char)
  | [] => some []
  | .raw c :: rest => (utf8DecodeToks rest).map (c :: ·)
  | .byte b :: rest =>
    if b < 128 then (utf8DecodeToks rest).map (Char.ofNat b :: ·)
    else if 194 ≤ b ∧ b ≤ 223 then
      match rest with
      | .byte b2 :: rest2 =>
        if 128 ≤ b2 ∧ b2 ≤ 191 then
          (utf8DecodeToks rest2).map (Char.ofNat ((b - 192) * 64 + (b2 - 128)) :: ·)
        else none
      | _ => none
    else if 224 ≤ b ∧ b ≤ 239 then
      match rest with
      | .byte b2 :: .byte b3 :: rest3 =>
        let lo2 := if b = 224 then 160 else 128
        let cp := (b - 224) * 4096 + (b2 - 128) * 64 + (b3 - 128)
        if lo2 ≤ b2 ∧ b2 ≤ 191 ∧ 128 ≤ b3 ∧ b3 ≤ 191 ∧ ¬(55296 ≤ cp ∧ cp ≤ 57343) then
          (utf8DecodeToks rest3).map (Char.ofNat cp :: ·)
        else none
      | _ => none
    else if 240 ≤ b ∧ b ≤ 244 then
      match rest with
      | .byte b2 :: .byte b3 :: .byte b4 :: rest4 =>
        let lo2 := if b = 240 then 144 else 128
        let hi2 := if b = 244 then 143 else 191
        let cp := (b - 240) * 262144 + (b2 - 128) * 4096 + (b3 - 128) * 64 + (b4 - 128)
        if lo2 ≤ b2 ∧ b2 ≤ hi2 ∧ 128 ≤ b3 ∧ b3 ≤ 191 ∧ 128 ≤ b4 ∧ b4 ≤ 191 then
          (utf8DecodeToks rest4).map (Char.ofNat cp :: ·)
        else none
      | _ => none
    else none

/-- Model of `decodeURIComponent`: percent-unescape, then UTF-8-decode the
escape-produced bytes; any malformed escape or invalid byte sequence fails
the whole decode (the function throws, which `safeExtractFilename`
catches). -/
def decodeURIChars (cs : List Char) : Option (List Char) :=
  (uriToks cs).bind utf8DecodeToks

/-- The tail of the filename regex
`/filename[^;=\n]*=(['"]?)([^'"\n]*)\1/` applied right after a `filename`
occurrence: skip `[^;=\n]*`, require `=`, then either a quoted capture
whose closing quote must match (on failure the engine backtracks to an
empty quote group, capturing the empty string), or an unquoted capture up
to the first quote or newline. -/
def matchAfterFilename (cs : List Char) : Option (List Char) :=
  let cs1 := cs.dropWhile fun c => ¬(c = ';' ∨ c = '=' ∨ c = '\n')
  match cs1 with
  | '=' :: rest =>
    let isQuote : Char → Bool := fun c => c = Char.ofNat 39 ∨ c = '"'
    match rest with
    | q :: rest2 =>
      if isQuote q then
        let captured := rest2.takeWhile fun c => ¬(isQuote c ∨ c = '\n')
        match rest2.drop captured.length with
        | c :: _ => if c = q then some captured else some []
        | [] => some []
      else some (rest.takeWhile fun c => ¬(isQuote c ∨ c = '\n'))
    | [] => some []
  | _ => none

/-- Scan a Content-Disposition value for the first position where the
filename regex matches. -/
def scanFilename : List Char → Option (List Char)
  | [] => none
  | c :: rest =>
    if "filename".data.isPrefixOf (c :: rest) then
      match matchAfterFilename ((c :: rest).drop 8) with
      | some cap => some cap
      | none => scanFilename rest
    else scanFilename rest

/-- Model of `safeExtractFilename` (src/browserAdapter.ts lines 310-320)
over the parsed (lowercase-keyed) response headers: read
Content-Disposition case-insensitively, run the regex, percent-decode the
capture; absence, no match, or a decode throw yields `undefined`. -/
def safeExtractFilename (headers : List (String × String)) : Option String :=
  match headerLookup headers "content-disposition" with
  | none => none
  | some disp =>
    match scanFilename disp.data with
    | none => none
    | some cap =>
      match decodeURIChars cap with
      | some dec => some (String.mk dec)
      | none => none

/-- The filename field the browser response construction produces: the
extraction result, with a falsy (empty) filename spread away
(src/browserAdapter.ts lines 158-164). -/
def browserFilenameField (headers : List (String × String)) : Option String :=
  match safeExtractFilename headers with
  | some s => if s = "" then none else some s
  | none => none

/-- Model of the browser backend's `onload` handler (src/browserAdapter.ts
lines 131-180): parse the buffered response (a throw rejecting with
`ERR_PARSE` carrying the raw text), attach the extracted filename, then
status validation — the configured predicate fully replacing the default —
rejecting with a null-coded error carrying the full response.  The
content-type is read case-insensitively from the parsed lowercase-keyed
headers, matching `xhr.getResponseHeader`. -/
def browserOnload (cfg : Config) (parse : String → Option Json) (status : Nat)
    (headers : List (String × String)) (responseText : String) :
    Except ClassifiedError HttpResponseM :=
  let ct := (headerLookup headers "content-type").getD ""
  match browserParseResponse cfg parse ct responseText with
  | .error _ =>
    .error ⟨"Failed to parse response", some "ERR_PARSE",
      some ⟨status, headers, .text responseText, none⟩, some status⟩
  | .ok d =>
    let response : HttpResponseM := ⟨status, headers, d, browserFilenameField headers⟩
    let validate := cfg.validateStatus.getD defaultValidateStatus
    if validate status then .ok response
    else .error ⟨"Request failed with status code " ++ toString status, none,
      some response, some status⟩

/-! ## Retry orchestration (node backend, src/nodeAdapter.ts lines 18-36)

`coreRequest` runs `for (let i = 0; i <= attempts; i++)` around
`makeRequest`, recording the last error and sleeping `retryDelay ?? 300`
milliseconds after every failed attempt that is not the last.  The loop
inspects neither the error's code nor `config.signal`.  The attempt is
abstracted as a function from the attempt index to its outcome (the server
may behave differently per invocation). -/

/-- Observable trace of one `coreRequest` call: its outcome, the number of
attempts issued, the number of inter-attempt delays awaited, and the
duration of each delay in milliseconds. -/
structure RetryResult where
  outcome : Except ClassifiedError HttpResponseM
  attemptsMade : Nat
  delayCount : Nat
  delayEachMs : Nat
deriving Repr

/-- The `coreRequest` loop from attempt index `i` with `fuel` retries
still allowed, returning the outcome plus attempt and delay counts.
`fuel = attempts - i` relative to the source loop. -/
def nodeCoreRequestGo (f : Nat → Except ClassifiedError HttpResponseM) :
    Nat → Nat → Except ClassifiedError HttpResponseM × Nat × Nat
  | i, fuel =>
    match f i, fuel with
    | .ok r, _ => (.ok r, 1, 0)
    | .error e, 0 => (.error e, 1, 0)
    | .error _, fuel' + 1 =>
      let rest := nodeCoreRequestGo f (i + 1) fuel'
      (rest.1, rest.2.1 + 1, rest.2.2 + 1)

/-- Model of `coreRequest`: `attempts = config.retry ?? 0` retries around
the attempt function, each retry preceded by a `config.retryDelay ?? 300`
millisecond delay. -/
def nodeCoreRequest (f : Nat → Except ClassifiedError HttpResponseM) (cfg : Config) :
    RetryResult :=
  let r := nodeCoreRequestGo f 0 (cfg.retry.getD 0)
  ⟨r.1, r.2.1, r.2.2, cfg.retryDelay.getD 300⟩

/-- `coreRequest` with the caller's cancellation timing made explicit:
`abortDuringDelay n` says whether the caller's signal fires during the
`n`-th inter-attempt delay.  The source's `delay` (src/nodeAdapter.ts
lines 9-11) is a bare `setTimeout` promise with no abort wiring, the loop
(lines 26-33) never consults `config.signal`, and an abort listener added
by a later attempt after the signal already fired is never invoked — so
the schedule cannot influence the run and the definition reduces to
`nodeCoreRequest`. -/
def nodeCoreRequestCancellable (f : Nat → Except ClassifiedError HttpResponseM)
    (cfg : Config) (_abortDuringDelay : Nat → Bool) : RetryResult :=
  nodeCoreRequest f cfg

/-! ## Retry orchestration (browser backend, src/browserAdapter.ts lines
12-246)

Each attempt is a fresh XHR whose terminal handlers decide between
settling and retrying: `onload` always settles (success, parse failure, or
validation failure), while `onerror` and `ontimeout` call `retryRequest()`
— schedule `makeRequest(attempt + 1)` after `retryDelay ?? 500`
milliseconds — exactly when `attempt < (config.retry ?? 0)`. -/

/-- The terminal event of one browser attempt, as delivered by the XHR
runtime. -/
inductive BrowserAttemptEvent where
  | onload (status : Nat) (headers : List (String × String)) (responseText : String)
  | onerror
  | ontimeout
deriving Repr

/-- What one browser attempt's terminal handler does with its event:
`some r` settles the surrounding promise chain with `r`, `none` schedules
a retry of the next attempt index after the retry delay. -/
def browserAttemptSettle (cfg : Config) (parse : String → Option Json) (attempt : Nat) :
    BrowserAttemptEvent → Option (Except ClassifiedError HttpResponseM)
  | .onload status headers responseText =>
    some (browserOnload cfg parse status headers responseText)
  | .onerror =>
    if attempt < cfg.retry.getD 0 then none
    else some (.error ⟨"Network error", some "ERR_NETWORK", none, none⟩)
  | .ontimeout =>
    if attempt < cfg.retry.getD 0 then none
    else some (.error ⟨"Timeout of " ++ toString (cfg.timeout.getD 0) ++ "ms exceeded",
      some "ECONNABORTED", none, none⟩)

/-- Drive the browser retry chain: attempt `attempt` receives
`events attempt`; a retry decision waits `retryDelay ?? 500` milliseconds
and recurses on the next attempt index.  `fuel` bounds the recursion;
`cfg.retry.getD 0 + 1` is always enough because a retry requires
`attempt < cfg.retry.getD 0`.  Returns the settled outcome, the number of
attempts issued, and the number of inter-attempt waits. -/
def browserRetryRun (cfg : Config) (parse : String → Option Json)
    (events : Nat → BrowserAttemptEvent) :
    Nat → Nat → Option (Except ClassifiedError HttpResponseM × Nat × Nat)
  | _, 0 => none
  | attempt, fuel + 1 =>
    match browserAttemptSettle cfg parse attempt (events attempt) with
    | some r => some (r, 1, 0)
    | none =>
      (browserRetryRun cfg parse events (attempt + 1) fuel).map
        fun rn => (rn.1, rn.2.1 + 1, rn.2.2 + 1)

/-- The browser retry chain with the caller's cancellation timing made
explicit: `abortDuringWait n` says whether the signal fires during the
`n`-th inter-attempt `setTimeout` wait.  `retryRequest`
(src/browserAdapter.ts lines 229-241) removes the abort listener *before*
scheduling the wait, the wait itself is a bare `setTimeout` with no abort
wiring, and the next attempt registers its abort listener only after the
signal has already fired (so it is never invoked) — the schedule cannot
influence the chain and the definition reduces to `browserRetryRun`. -/
def browserRetryRunCancellable (cfg : Config) (parse : String → Option Json)
    (events : Nat → BrowserAttemptEvent) (_abortDuringWait : Nat → Bool)
    (attempt fuel : Nat) : Option (Except ClassifiedError HttpResponseM × Nat × Nat) :=
  browserRetryRun cfg parse events attempt fuel

/-! ## Per-attempt settlement machines (claim C3)

Both adapters wrap one attempt in a host promise: the first
resolve/reject wins and every later one is ignored (promise semantics).
On top of that the node adapter guards its handlers with
`requestErrorHandled` / `timeoutHandled` / `responseErrorHandled` flags
and the browser adapter with a single `isHandled` flag, and both remove
the external abort listener on completion.  The machines below step those
handler bodies over an arbitrary event sequence. -/

/-- Settle a promise: the first settlement wins, later ones are no-ops. -/
def promiseSettle (slot : Option (Except ClassifiedError HttpResponseM))
    (r : Except ClassifiedError HttpResponseM) :
    Option (Except ClassifiedError HttpResponseM) :=
  match slot with
  | none => some r
  | some r0 => some r0

/-- State of one node attempt: the promise slot, the three handler guard
flags, and whether the abort listener is still registered. -/
structure NodeAttemptState where
  settled : Option (Except ClassifiedError HttpResponseM) := none
  requestErrorHandled : Bool := false
  timeoutHandled : Bool := false
  responseErrorHandled : Bool := false
  abortListenerActive : Bool := false
deriving Repr

/-- Events that can reach a node attempt's terminal handlers. -/
inductive NodeEvent where
  | resEnd (statusCode : Nat) (headers : List (String × String)) (body : String)
  | resError (msg : String)
  | reqError (msg : String)
  | timeoutFire
  | abortFire
deriving Repr


/-- One step of the node attempt machine, mirroring the handler bodies of
src/nodeAdapter.ts lines 151-274: `end` removes the abort listener and
settles the decode/validation outcome (no guard flag of its own); the
response-error, request-error and timeout handlers are guarded by their
flags; the abort handler (registered only when a signal is present) shares
the `timeoutHandled` flag with the timeout handler. -/
def nodeAttemptStep (cfg : Config) (parse : String → Option Json)
    (s : NodeAttemptState) : NodeEvent → NodeAttemptState
  | .resEnd statusCode headers body =>
    match nodeParseData cfg parse ((headerLookup headers "content-type").getD "") body with
    | .error _ =>
      -- the `catch` of src/nodeAdapter.ts lines 179-192 rejects with
      -- ERR_PARSE and returns before the abort-listener cleanup at lines
      -- 202-205, so the listener stays registered on this path
      { s with settled := promiseSettle s.settled (nodeEndHandler cfg parse statusCode headers body) }
    | .ok _ =>
      let s := { s with abortListenerActive := false }
      { s with settled := promiseSettle s.settled (nodeEndHandler cfg parse statusCode headers body) }
  | .resError msg =>
    if s.responseErrorHandled then s
    else
      let s := { s with responseErrorHandled := true, abortListenerActive := false }
      let e : ClassifiedError :=
        ⟨"Response stream error: " ++ msg, some "ERR_RESPONSE", none, none⟩
      { s with settled := promiseSettle s.settled (.error e) }
  | .reqError msg =>
    if s.requestErrorHandled then s
    else
      let s := { s with requestErrorHandled := true, abortListenerActive := false }
      let e : ClassifiedError := ⟨msg, some "ERR_NETWORK", none, none⟩
      { s with settled := promiseSettle s.settled (.error e) }
  | .timeoutFire =>
    if s.timeoutHandled then s
    else
      let s := { s with timeoutHandled := true }
      let e : ClassifiedError :=
        ⟨"Timeout of " ++ toString (cfg.timeout.getD 0) ++ "ms exceeded",
          some "ECONNABORTED", none, none⟩
      { s with settled := promiseSettle s.settled (.error e) }
  | .abortFire =>
    if ¬s.abortListenerActive then s
    else if s.timeoutHandled then s
    else
      let s := { s with timeoutHandled := true }
      let e : ClassifiedError := ⟨"Request aborted", some "ECONNABORTED", none, none⟩
      { s with settled := promiseSettle s.settled (.error e) }

/-- Process a whole event sequence for one node attempt. -/
def nodeAttemptRun (cfg : Config) (parse : String → Option Json)
    (s : NodeAttemptState) (events : List NodeEvent) : NodeAttemptState :=
  events.foldl (nodeAttemptStep cfg parse) s

/-- State of one browser attempt: the promise slot, the shared `isHandled`
flag, whether the abort listener is registered, and whether a retry was
scheduled instead of settling. -/
structure BrowserAttemptState where
  settled : Option (Except ClassifiedError HttpResponseM) := none
  isHandled : Bool := false
  abortListenerActive : Bool := false
  retryScheduled : Bool := false
deriving Repr

/-- Events that can reach one browser attempt: its three XHR terminal
handlers, the external abort listener, and — when this attempt retried —
the settlement of the chained child attempt. -/
inductive BrowserEvent where
  | onload (status : Nat) (headers : List (String × String)) (responseText : String)
  | onerror
  | ontimeout
  | abortFire
  | childSettle (r : Except ClassifiedError HttpResponseM)
deriving Repr

/-- One step of the browser attempt machine, mirroring
src/browserAdapter.ts lines 70-77 and 128-241: `onload`, `onerror` and
`ontimeout` are guarded by `isHandled` and remove the abort listener;
error/timeout either settle (retries exhausted) or mark a retry; the abort
listener has no `isHandled` guard and settles directly; a child settlement
propagates through the `.then(resolve).catch(reject)` chain. -/
def browserAttemptStep (cfg : Config) (parse : String → Option Json) (attempt : Nat)
    (s : BrowserAttemptState) : BrowserEvent → BrowserAttemptState
  | .onload status headers responseText =>
    if s.isHandled then s
    else
      let s := { s with isHandled := true, abortListenerActive := false }
      { s with settled := promiseSettle s.settled (browserOnload cfg parse status headers responseText) }
  | .onerror =>
    if s.isHandled then s
    else
      let s := { s with isHandled := true, abortListenerActive := false }
      if attempt < cfg.retry.getD 0 then { s with retryScheduled := true }
      else
        let e : ClassifiedError := ⟨"Network error", some "ERR_NETWORK", none, none⟩
        { s with settled := promiseSettle s.settled (.error e) }
  | .ontimeout =>
    if s.isHandled then s
    else
      let s := { s with isHandled := true, abortListenerActive := false }
      if attempt < cfg.retry.getD 0 then { s with retryScheduled := true }
      else
        let e : ClassifiedError :=
          ⟨"Timeout of " ++ toString (cfg.timeout.getD 0) ++ "ms exceeded",
            some "ECONNABORTED", none, none⟩
        { s with settled := promiseSettle s.settled (.error e) }
  | .abortFire =>
    if ¬s.abortListenerActive then s
    else
      let e : ClassifiedError := ⟨"Request aborted", some "ECONNABORTED", none, none⟩
      { s with settled := promiseSettle s.settled (.error e) }
  | .childSettle r =>
    { s with settled := promiseSettle s.settled r }

/-- Process a whole event sequence for one browser attempt. -/
def browserAttemptRun (cfg : Config) (parse : String → Option Json) (attempt : Nat)
    (s : BrowserAttemptState) (events : List BrowserEvent) : BrowserAttemptState :=
  events.foldl (browserAttemptStep cfg parse attempt) s

/-! ## Concrete fixtures used by counterexamples and witnesses -/

/-- A plain successful response. -/
def sampleOk : HttpResponseM := ⟨200, [], .text "ok", none⟩

/-- A server whose first invocation yields HTTP 500 (producing the node
backend's status-validation failure) and whose later invocations
succeed. -/
def statusFailAttempts : Nat → Except ClassifiedError HttpResponseM :=
  fun n => if n = 0 then nodeEndHandler {} (fun _ => none) 500 [] "err" else .ok sampleOk

/-- A transport that fails with a network error on its first invocation
and succeeds afterwards. -/
def netFailAttempts : Nat → Except ClassifiedError HttpResponseM :=
  fun n =>
    if n = 0 then .error ⟨"connect ECONNREFUSED", some "ERR_NETWORK", none, none⟩
    else .ok sampleOk

/-- A transport that fails with a network error on its first two
invocations and succeeds on the third. -/
def flaky3 : Nat → Except ClassifiedError HttpResponseM :=
  fun n =>
    if n < 2 then .error ⟨"connect ECONNREFUSED", some "ERR_NETWORK", none, none⟩
    else .ok sampleOk

/-- Response headers carrying a Content-Disposition filename (keys
lowercase, as both the node runtime and `parseHeaders` deliver them). -/
def cdHeaders : List (String × String) :=
  [("content-disposition", "attachment; filename=\"report.pdf\"")]

/-- Browser attempt events: network errors on the first two attempts, a
plain 200 response on the third. -/
def flakyEvents3 : Nat → BrowserAttemptEvent :=
  fun n => if n < 2 then .onerror else .onload 200 [] "ok"

/-- Browser attempt events: a network error on the first attempt, a plain
200 response afterwards. -/
def netFailEvents : Nat → BrowserAttemptEvent :=
  fun n => if n = 0 then .onerror else .onload 200 [] "ok"

/-! ## Retry-loop lemmas (shared) -/

theorem nodeCoreRequestGo_ok {f : Nat → Except ClassifiedError HttpResponseM} {i : Nat}
    (fuel : Nat) {r : HttpResponseM} (h : f i = .ok r) :
    nodeCoreRequestGo f i fuel = (.ok r, 1, 0) := by
  cases fuel <;> simp [nodeCoreRequestGo, h]

theorem nodeCoreRequestGo_error_zero {f : Nat → Except ClassifiedError HttpResponseM}
    {i : Nat} {e : ClassifiedError} (h : f i = .error e) :
    nodeCoreRequestGo f i 0 = (.error e, 1, 0) := by
  simp [nodeCoreRequestGo, h]

theorem nodeCoreRequestGo_error_succ {f : Nat → Except ClassifiedError HttpResponseM}
    {i : Nat} {e : ClassifiedError} (fuel : Nat) (h : f i = .error e) :
    nodeCoreRequestGo f i (fuel + 1) =
      ((nodeCoreRequestGo f (i + 1) fuel).1,
        (nodeCoreRequestGo f (i + 1) fuel).2.1 + 1,
        (nodeCoreRequestGo f (i + 1) fuel).2.2 + 1) := by
  simp [nodeCoreRequestGo, h]

theorem nodeCoreRequestGo_attempts_pos (f : Nat → Except ClassifiedError HttpResponseM)
    (i fuel : Nat) : 1 ≤ (nodeCoreRequestGo f i fuel).2.1 := by
  cases h : f i with
  | ok r => simp [nodeCoreRequestGo_ok fuel h]
  | error e =>
    cases fuel with
    | zero => simp [nodeCoreRequestGo_error_zero h]
    | succ n =>
      rw [nodeCoreRequestGo_error_succ n h]
      show 1 ≤ (nodeCoreRequestGo f (i + 1) n).2.1 + 1
      omega

theorem nodeCoreRequestGo_attempts_le (f : Nat → Except ClassifiedError HttpResponseM)
    (fuel : Nat) : ∀ i, (nodeCoreRequestGo f i fuel).2.1 ≤ fuel + 1 := by
  induction fuel with
  | zero =>
    intro i
    cases h : f i
    · simp [nodeCoreRequestGo_error_zero h]
    · simp [nodeCoreRequestGo_ok 0 h]
  | succ n ih =>
    intro i
    cases h : f i
    · rw [nodeCoreRequestGo_error_succ n h]
      exact Nat.succ_le_succ (ih (i + 1))
    · simp [nodeCoreRequestGo_ok (n + 1) h]

theorem nodeCoreRequestGo_success (f : Nat → Except ClassifiedError HttpResponseM)
    (k : Nat) : ∀ i fuel, k ≤ fuel → (∀ j < k, ∃ e, f (i + j) = .error e) →
    ∀ r, f (i + k) = .ok r → nodeCoreRequestGo f i fuel = (.ok r, k + 1, k) := by
  induction k with
  | zero =>
    intro i fuel _ _ r hok
    simpa using nodeCoreRequestGo_ok fuel (by simpa using hok)
  | succ m ih =>
    intro i fuel hk hfail r hok
    obtain ⟨fuel', rfl⟩ : ∃ fuel', fuel = fuel' + 1 :=
      ⟨fuel - 1, by omega⟩
    obtain ⟨e, he⟩ := hfail 0 (Nat.succ_pos m)
    rw [Nat.add_zero] at he
    have hfail' : ∀ j < m, ∃ e, f (i + 1 + j) = .error e := by
      intro j hj
      have := hfail (j + 1) (by omega)
      have heq : i + (j + 1) = i + 1 + j := by omega
      rwa [heq] at this
    have hok' : f (i + 1 + m) = .ok r := by
      have heq : i + (m + 1) = i + 1 + m := by omega
      rwa [heq] at hok
    rw [nodeCoreRequestGo_error_succ fuel' he,
      ih (i + 1) fuel' (by omega) hfail' r hok']

theorem nodeCoreRequestGo_exhaust (f : Nat → Except ClassifiedError HttpResponseM) :
    ∀ fuel i, (∀ j < fuel, ∃ e, f (i + j) = .error e) →
    ∀ e, f (i + fuel) = .error e → nodeCoreRequestGo f i fuel = (.error e, fuel + 1, fuel) := by
  intro fuel
  induction fuel with
  | zero =>
    intro i _ e hlast
    exact nodeCoreRequestGo_error_zero (by simpa using hlast)
  | succ m ih =>
    intro i hfail e hlast
    obtain ⟨e0, he0⟩ := hfail 0 (Nat.succ_pos m)
    rw [Nat.add_zero] at he0
    have hfail' : ∀ j < m, ∃ e', f (i + 1 + j) = .error e' := by
      intro j hj
      have := hfail (j + 1) (by omega)
      have heq : i + (j + 1) = i + 1 + j := by omega
      rwa [heq] at this
    have hlast' : f (i + 1 + m) = .error e := by
      have heq : i + (m + 1) = i + 1 + m := by omega
      rwa [heq] at hlast
    rw [nodeCoreRequestGo_error_succ m he0, ih (i + 1) hfail' e hlast']

/-! ## Browser retry-chain lemmas (shared) -/

theorem browserRetryRun_settle {cfg : Config} {parse : String → Option Json}
    {events : Nat → BrowserAttemptEvent} {attempt : Nat}
    {r : Except ClassifiedError HttpResponseM} (fuel : Nat)
    (hs : browserAttemptSettle cfg parse attempt (events attempt) = some r) :
    browserRetryRun cfg parse events attempt (fuel + 1) = some (r, 1, 0) := by
  simp [browserRetryRun, hs]

theorem browserRetryRun_retry_step {cfg : Config} {parse : String → Option Json}
    {events : Nat → BrowserAttemptEvent} {attempt : Nat} (fuel : Nat)
    (hs : browserAttemptSettle cfg parse attempt (events attempt) = none) :
    browserRetryRun cfg parse events attempt (fuel + 1) =
      (browserRetryRun cfg parse events (attempt + 1) fuel).map
        fun rn => (rn.1, rn.2.1 + 1, rn.2.2 + 1) := by
  conv_lhs => rw [browserRetryRun]
  rw [hs]

theorem browserRetryRun_bound (cfg : Config) (parse : String → Option Json)
    (events : Nat → BrowserAttemptEvent) :
    ∀ (fuel attempt : Nat) (r : Except ClassifiedError HttpResponseM) (n d : Nat),
      browserRetryRun cfg parse events attempt fuel = some (r, n, d) →
      n ≤ fuel ∧ d + 1 = n := by
  intro fuel
  induction fuel with
  | zero =>
    intro attempt r n d h
    simp [browserRetryRun] at h
  | succ f ih =>
    intro attempt r n d h
    cases hs : browserAttemptSettle cfg parse attempt (events attempt) with
    | some r0 =>
      rw [browserRetryRun_settle f hs] at h
      obtain ⟨rfl, rfl, rfl⟩ : r0 = r ∧ 1 = n ∧ 0 = d := by
        simpa using h
      omega
    | none =>
      rw [browserRetryRun_retry_step f hs] at h
      cases hr : browserRetryRun cfg parse events (attempt + 1) f with
      | none => rw [hr] at h; simp at h
      | some rn =>
        rw [hr] at h
        obtain ⟨h1, h2, h3⟩ : rn.1 = r ∧ rn.2.1 + 1 = n ∧ rn.2.2 + 1 = d := by
          simpa using h
        have := ih (attempt + 1) rn.1 rn.2.1 rn.2.2 (by rw [hr])
        omega

theorem browserRetryRun_success (cfg : Config) (parse : String → Option Json)
    (events : Nat → BrowserAttemptEvent) (k : Nat) :
    ∀ attempt fuel, k < fuel →
      (∀ j < k, browserAttemptSettle cfg parse (attempt + j) (events (attempt + j)) = none) →
      ∀ r, browserAttemptSettle cfg parse (attempt + k) (events (attempt + k)) = some r →
      browserRetryRun cfg parse events attempt fuel = some (r, k + 1, k) := by
  induction k with
  | zero =>
    intro attempt fuel hk _ r hs
    obtain ⟨f, rfl⟩ : ∃ f, fuel = f + 1 := ⟨fuel - 1, by omega⟩
    have hs0 : browserAttemptSettle cfg parse attempt (events attempt) = some r := by
      simpa using hs
    simp [browserRetryRun, hs0]
  | succ m ih =>
    intro attempt fuel hk hfail r hs
    obtain ⟨f, rfl⟩ : ∃ f, fuel = f + 1 := ⟨fuel - 1, by omega⟩
    have h0 : browserAttemptSettle cfg parse attempt (events attempt) = none := by
      simpa using hfail 0 (Nat.succ_pos m)
    have hfail' : ∀ j < m,
        browserAttemptSettle cfg parse (attempt + 1 + j) (events (attempt + 1 + j)) = none := by
      intro j hj
      have := hfail (j + 1) (by omega)
      have heq : attempt + (j + 1) = attempt + 1 + j := by omega
      rwa [heq] at this
    have hs' : browserAttemptSettle cfg parse (attempt + 1 + m) (events (attempt + 1 + m)) =
        some r := by
      have heq : attempt + (m + 1) = attempt + 1 + m := by omega
      rwa [heq] at hs
    rw [browserRetryRun_retry_step f h0, ih (attempt + 1) f (by omega) hfail' r hs']
    rfl

theorem browserRetryRun_total (cfg : Config) (parse : String → Option Json)
    (events : Nat → BrowserAttemptEvent) :
    ∀ f attempt, cfg.retry.getD 0 ≤ attempt + f →
      (browserRetryRun cfg parse events attempt (f + 1)).isSome := by
  intro f
  induction f with
  | zero =>
    intro attempt h
    cases hev : events attempt with
    | onload st hd tx => simp [browserRetryRun, browserAttemptSettle, hev]
    | onerror =>
      have hlt : ¬(attempt < cfg.retry.getD 0) := by omega
      simp [browserRetryRun, browserAttemptSettle, hev, hlt]
    | ontimeout =>
      have hlt : ¬(attempt < cfg.retry.getD 0) := by omega
      simp [browserRetryRun, browserAttemptSettle, hev, hlt]
  | succ f ih =>
    intro attempt h
    cases hs : browserAttemptSettle cfg parse attempt (events attempt) with
    | some r => simp [browserRetryRun_settle (f + 1) hs]
    | none =>
      have h1 := ih (attempt + 1) (by omega)
      obtain ⟨rn, hrn⟩ := Option.isSome_iff_exists.mp h1
      rw [browserRetryRun_retry_step (f + 1) hs, hrn]
      rfl

/-! ## Claim theorems -/

/-- Claim C4: with retry count `R` both orchestrators run at most `R + 1`
attempts.  Node: if attempt `k` (zero-based) is the first to succeed with
`k ≤ R`, its response is returned after exactly `k + 1` attempts and `k`
inter-attempt delays of `retryDelay ?? 300` milliseconds each; if all
`R + 1` attempts fail, the last attempt's failure is the single rejection,
after `R + 1` attempts and `R` delays.  Browser: any settled chain started
with fuel `R + 1` made at most `R + 1` attempts with one `retryDelay ??
500` wait between consecutive attempts; if the first `k ≤ R` attempts each
schedule a retry and attempt `k`'s handler settles with outcome `r`
(success, or the terminal failure when retries are exhausted), the chain
settles with exactly `r` after `k + 1` attempts and `k` waits; and fuel
`R + 1` always suffices for the chain to settle. -/
theorem claim_C4_retry_count_semantics (cfg : Config) (parse : String → Option Json)
    (f : Nat → Except ClassifiedError HttpResponseM) (R : Nat) (hR : cfg.retry = some R) :
    (nodeCoreRequest f cfg).attemptsMade ≤ R + 1 ∧
    (∀ k r, k ≤ R → (∀ j < k, ∃ e, f j = .error e) → f k = .ok r →
      nodeCoreRequest f cfg = ⟨.ok r, k + 1, k, cfg.retryDelay.getD 300⟩) ∧
    (∀ e, (∀ j < R, ∃ e', f j = .error e') → f R = .error e →
      nodeCoreRequest f cfg = ⟨.error e, R + 1, R, cfg.retryDelay.getD 300⟩) ∧
    (∀ (events : Nat → BrowserAttemptEvent) r n dcount,
      browserRetryRun cfg parse events 0 (R + 1) = some (r, n, dcount) →
      n ≤ R + 1 ∧ dcount + 1 = n) ∧
    (∀ (events : Nat → BrowserAttemptEvent) k r, k ≤ R →
      (∀ j < k, browserAttemptSettle cfg parse j (events j) = none) →
      browserAttemptSettle cfg parse k (events k) = some r →
      browserRetryRun cfg parse events 0 (R + 1) = some (r, k + 1, k)) ∧
    (∀ events : Nat → BrowserAttemptEvent,
      (browserRetryRun cfg parse events 0 (R + 1)).isSome) := by
  refine ⟨?_, ?_, ?_, ?_, ?_, ?_⟩
  · simpa [nodeCoreRequest, hR] using nodeCoreRequestGo_attempts_le f R 0
  · intro k r hk hfail hok
    have := nodeCoreRequestGo_success f k 0 R hk (by simpa using hfail) r (by simpa using hok)
    simp [nodeCoreRequest, hR, this]
  · intro e hfail hlast
    have := nodeCoreRequestGo_exhaust f R 0 (by simpa using hfail) e (by simpa using hlast)
    simp [nodeCoreRequest, hR, this]
  · intro events r n dcount h
    exact browserRetryRun_bound cfg parse events (R + 1) 0 r n dcount h
  · intro events k r hk hfail hs
    exact browserRetryRun_success cfg parse events k 0 (R + 1) (by omega)
      (fun j hj => by simpa using hfail j hj) r (by simpa using hs)
  · intro events
    exact browserRetryRun_total cfg parse events R 0 (by simp [hR])

/-- Witness for C4: `retry = 2` against a transport failing its first two
invocations and succeeding on the third yields the success after exactly
3 attempts and 2 delays, on both backends. -/
theorem claim_C4_retry_count_semantics_witness :
    nodeCoreRequest flaky3 { retry := some 2 } = ⟨.ok sampleOk, 3, 2, 300⟩ ∧
    browserRetryRun { retry := some 2 } (fun _ => none) flakyEvents3 0 3 =
      some (.ok ⟨200, [], .text "ok", none⟩, 3, 2) := by
  have h := claim_C4_retry_count_semantics { retry := some 2 } (fun _ => none) flaky3 2 rfl
  constructor
  · exact h.2.1 2 sampleOk (by decide)
      (fun j hj => ⟨⟨"connect ECONNREFUSED", some "ERR_NETWORK", none, none⟩, by
        simp [flaky3, hj]⟩)
      (by simp [flaky3])
  · exact h.2.2.2.2.1 flakyEvents3 2 (.ok ⟨200, [], .text "ok", none⟩) (by decide)
      (fun j hj => by simp [flakyEvents3, hj, browserAttemptSettle])
      rfl

/-- Claim C1 counterexample: the node orchestrator retries a
status-validation failure.  With `retry = 1`, a first attempt that fails
status validation (a genuine null-coded error produced by the `end`
handler for HTTP 500) is followed by a second attempt whose success is
returned — 2 attempts and 1 delay, where the claim demands immediate
propagation of the failure after 1 attempt and no delay. -/
theorem claim_C1_counterexample :
    statusFailAttempts 0 =
      .error ⟨"Request failed with status code 500", none,
        some ⟨500, [], .text "err", none⟩, some 500⟩ ∧
    nodeCoreRequest statusFailAttempts { retry := some 1 } = ⟨.ok sampleOk, 2, 1, 300⟩ :=
  ⟨rfl, rfl⟩

/-- Claim C1 amended: the browser backend retries only network-error and
timeout failures (`onload` — covering success, parse failure and
status-validation failure — always settles immediately; `onerror` and
`ontimeout` retry exactly when `attempt < retry` and otherwise settle with
the terminal error), while the node orchestrator retries every failure
kind — including null-coded status-validation failures — waiting out a
delay after each failed non-final attempt. -/
theorem claim_C1_amended (cfg : Config) (parse : String → Option Json)
    (f : Nat → Except ClassifiedError HttpResponseM) (e : ClassifiedError) (attempt : Nat) :
    (f 0 = .error e → 1 ≤ cfg.retry.getD 0 →
      2 ≤ (nodeCoreRequest f cfg).attemptsMade ∧ 1 ≤ (nodeCoreRequest f cfg).delayCount) ∧
    (∀ status headers txt,
      browserAttemptSettle cfg parse attempt (.onload status headers txt) =
        some (browserOnload cfg parse status headers txt)) ∧
    (browserAttemptSettle cfg parse attempt .onerror =
      if attempt < cfg.retry.getD 0 then none
      else some (.error ⟨"Network error", some "ERR_NETWORK", none, none⟩)) ∧
    (browserAttemptSettle cfg parse attempt .ontimeout =
      if attempt < cfg.retry.getD 0 then none
      else some (.error ⟨"Timeout of " ++ toString (cfg.timeout.getD 0) ++ "ms exceeded",
        some "ECONNABORTED", none, none⟩)) := by
  refine ⟨?_, fun _ _ _ => rfl, rfl, rfl⟩
  intro h0 hR
  obtain ⟨R', hR'⟩ : ∃ R', cfg.retry.getD 0 = R' + 1 :=
    ⟨cfg.retry.getD 0 - 1, by omega⟩
  have hstep := nodeCoreRequestGo_error_succ (f := f) (i := 0) R' h0
  have hpos := nodeCoreRequestGo_attempts_pos f (0 + 1) R'
  constructor
  · show 2 ≤ (nodeCoreRequestGo f 0 (cfg.retry.getD 0)).2.1
    rw [hR', hstep]
    show 2 ≤ (nodeCoreRequestGo f (0 + 1) R').2.1 + 1
    omega
  · show 1 ≤ (nodeCoreRequestGo f 0 (cfg.retry.getD 0)).2.2
    rw [hR', hstep]
    show 1 ≤ (nodeCoreRequestGo f (0 + 1) R').2.2 + 1
    omega

/-- Witness for C1 amended: with `retry = 1`, a first-attempt
status-validation failure leads to a second node attempt, and a browser
`onerror` on attempt 0 schedules a retry instead of settling. -/
theorem claim_C1_amended_witness :
    2 ≤ (nodeCoreRequest statusFailAttempts { retry := some 1 }).attemptsMade ∧
    browserAttemptSettle { retry := some 1 } (fun _ => none) 0 .onerror = none := by
  have h := claim_C1_amended { retry := some 1 } (fun _ => none) statusFailAttempts
    ⟨"Request failed with status code 500", none,
      some ⟨500, [], .text "err", none⟩, some 500⟩ 0
  refine ⟨(h.1 rfl (by decide)).1, ?_⟩
  have h2 := h.2.2.1
  simpa using h2

/-- Claim C9 counterexample: with `retry = 1` and the caller's signal
firing during every inter-attempt wait, both orchestrators still issue the
second attempt after the wait and resolve with its success — the pending
delay is not aborted, the call is not rejected, and a further attempt is
issued (node loop and browser `retryRequest` chain alike). -/
theorem claim_C9_counterexample :
    netFailAttempts 0 = .error ⟨"connect ECONNREFUSED", some "ERR_NETWORK", none, none⟩ ∧
    nodeCoreRequestCancellable netFailAttempts { retry := some 1 } (fun _ => true) =
      ⟨.ok sampleOk, 2, 1, 300⟩ ∧
    netFailEvents 0 = .onerror ∧
    browserRetryRunCancellable { retry := some 1 } (fun _ => none) netFailEvents
      (fun _ => true) 0 2 = some (.ok ⟨200, [], .text "ok", none⟩, 2, 1) :=
  ⟨rfl, rfl, rfl, rfl⟩

/-- Claim C9 amended: firing the caller's cancellation signal during an
inter-retry wait has no effect on the retry sequence, in either backend —
the node `delay` is a bare `setTimeout` promise with no abort wiring and
the loop never re-checks the signal; the browser `retryRequest` removes
the abort listener before its `setTimeout` wait and the next attempt's
listener is registered only after the signal has already fired — so both
runs are independent of the abort schedule, and the next attempt is issued
(and may succeed) as if no cancellation had occurred. -/
theorem claim_C9_amended (f : Nat → Except ClassifiedError HttpResponseM) (cfg : Config)
    (parse : String → Option Json) (events : Nat → BrowserAttemptEvent)
    (attempt fuel : Nat) (abortSchedule : Nat → Bool) :
    nodeCoreRequestCancellable f cfg abortSchedule = nodeCoreRequest f cfg ∧
    nodeCoreRequestCancellable netFailAttempts { retry := some 1 } abortSchedule =
      ⟨.ok sampleOk, 2, 1, 300⟩ ∧
    browserRetryRunCancellable cfg parse events abortSchedule attempt fuel =
      browserRetryRun cfg parse events attempt fuel ∧
    browserRetryRunCancellable { retry := some 1 } parse netFailEvents abortSchedule 0 2 =
      some (.ok ⟨200, [], .text "ok", none⟩, 2, 1) :=
  ⟨rfl, rfl, rfl, rfl⟩

/-- Every step of the node attempt machine preserves an existing
settlement: the promise slot is only ever written through `promiseSettle`,
whose first write wins. -/
theorem nodeAttemptStep_preserves (cfg : Config) (parse : String → Option Json)
    {s : NodeAttemptState} {r : Except ClassifiedError HttpResponseM} (e : NodeEvent)
    (h : s.settled = some r) : (nodeAttemptStep cfg parse s e).settled = some r := by
  cases e with
  | resEnd st hd bd =>
    simp only [nodeAttemptStep]
    split <;> simp [promiseSettle, h]
  | resError m =>
    simp only [nodeAttemptStep]
    split
    · exact h
    · simp [promiseSettle, h]
  | reqError m =>
    simp only [nodeAttemptStep]
    split
    · exact h
    · simp [promiseSettle, h]
  | timeoutFire =>
    simp only [nodeAttemptStep]
    split
    · exact h
    · simp [promiseSettle, h]
  | abortFire =>
    simp only [nodeAttemptStep]
    split
    · exact h
    · split
      · exact h
      · simp [promiseSettle, h]

/-- Every step of the browser attempt machine preserves an existing
settlement. -/
theorem browserAttemptStep_preserves (cfg : Config) (parse : String → Option Json)
    (attempt : Nat) {s : BrowserAttemptState} {r : Except ClassifiedError HttpResponseM}
    (e : BrowserEvent) (h : s.settled = some r) :
    (browserAttemptStep cfg parse attempt s e).settled = some r := by
  cases e with
  | onload st hd txt =>
    simp only [browserAttemptStep]
    split
    · exact h
    · simp [promiseSettle, h]
  | onerror =>
    simp only [browserAttemptStep]
    split
    · exact h
    · split
      · simpa using h
      · simp [promiseSettle, h]
  | ontimeout =>
    simp only [browserAttemptStep]
    split
    · exact h
    · split
      · simpa using h
      · simp [promiseSettle, h]
  | abortFire =>
    simp only [browserAttemptStep]
    split
    · exact h
    · simp [promiseSettle, h]
  | childSettle r0 =>
    simp only [browserAttemptStep]
    simp [promiseSettle, h]

/-- Claim C3: at-most-once settlement per attempt.  In both backends, once
the attempt's promise has settled with outcome `r`, processing any further
sequence of terminal events (response end, stream errors, network errors,
timeout firing, the abort listener firing, a retried child settling)
leaves the settled outcome unchanged — every later terminal trigger is a
no-op. -/
theorem claim_C3_at_most_once (cfg : Config) (parse : String → Option Json)
    (attempt : Nat) (r : Except ClassifiedError HttpResponseM) :
    (∀ (s : NodeAttemptState) (events : List NodeEvent), s.settled = some r →
      (nodeAttemptRun cfg parse s events).settled = some r) ∧
    (∀ (s : BrowserAttemptState) (events : List BrowserEvent), s.settled = some r →
      (browserAttemptRun cfg parse attempt s events).settled = some r) := by
  constructor
  · intro s events
    induction events generalizing s with
    | nil => intro h; simpa [nodeAttemptRun] using h
    | cons e rest ih =>
      intro h
      have h1 := nodeAttemptStep_preserves cfg parse e h
      simpa [nodeAttemptRun] using ih _ h1
  · intro s events
    induction events generalizing s with
    | nil => intro h; simpa [browserAttemptRun] using h
    | cons e rest ih =>
      intro h
      have h1 := browserAttemptStep_preserves cfg parse attempt e h
      simpa [browserAttemptRun] using ih _ h1

/-- Witness for C3: an attempt that has already resolved successfully
(via `end` on a 200 response) is unaffected by a timeout firing and the
abort listener firing afterwards. -/
theorem claim_C3_at_most_once_witness :
    (nodeAttemptRun {} (fun _ => none)
      (nodeAttemptRun {} (fun _ => none) { abortListenerActive := true }
        [.resEnd 200 [] "ok"])
      [.timeoutFire, .abortFire]).settled = some (.ok ⟨200, [], .text "ok", none⟩) :=
  (claim_C3_at_most_once {} (fun _ => none) 0 (.ok ⟨200, [], .text "ok", none⟩)).1
    (nodeAttemptRun {} (fun _ => none) { abortListenerActive := true } [.resEnd 200 [] "ok"])
    [.timeoutFire, .abortFire] rfl

/-- Claim C5 counterexample: for `responseType: 'stream'` the node backend
resolves the attempt successfully as soon as headers arrive — even for an
HTTP 500 that the default predicate rejects — so the status-validation
predicate is not applied at all on the stream path, where the claim says
it is applied using headers only. -/
theorem claim_C5_counterexample :
    defaultValidateStatus 500 = false ∧
    nodeOnResponseHeaders { responseType := some .stream } 500 [] =
      some ⟨500, [], .stream, none⟩ :=
  ⟨rfl, rfl⟩

/-- Claim C5 amended: for buffered responses the status-validation
predicate (the caller's `validateStatus`, or the default
`200 ≤ status < 300` when none is given, a custom predicate fully
replacing the default) is applied after the body is fully available, and
whenever it returns false the attempt rejects with a null-coded error
whose `response` is the fully-formed Response (so `error.response.status`
is the HTTP status and the decoded body is inspectable); for
`responseType: 'stream'` (node backend) the attempt instead resolves with
the live stream immediately after headers, with no validation at all. -/
theorem claim_C5_amended (cfg : Config) (parse : String → Option Json)
    (statusCode : Nat) (headers : List (String × String)) (body : String) (d : RespData) :
    (cfg.responseType = some .stream →
      nodeOnResponseHeaders cfg statusCode headers =
        some ⟨if statusCode = 0 then 200 else statusCode, headers, .stream, none⟩) ∧
    (nodeParseData cfg parse ((headerLookup headers "content-type").getD "") body = .ok d →
      (cfg.validateStatus.getD defaultValidateStatus
          (if statusCode = 0 then 200 else statusCode) = true →
        nodeEndHandler cfg parse statusCode headers body =
          .ok ⟨if statusCode = 0 then 200 else statusCode, headers, d, none⟩) ∧
      (cfg.validateStatus.getD defaultValidateStatus
          (if statusCode = 0 then 200 else statusCode) = false →
        nodeEndHandler cfg parse statusCode headers body =
          .error ⟨"Request failed with status code " ++
              toString (if statusCode = 0 then 200 else statusCode), none,
            some ⟨if statusCode = 0 then 200 else statusCode, headers, d, none⟩,
            some (if statusCode = 0 then 200 else statusCode)⟩)) ∧
    (browserParseResponse cfg parse ((headerLookup headers "content-type").getD "") body =
        .ok d →
      (cfg.validateStatus.getD defaultValidateStatus statusCode = true →
        browserOnload cfg parse statusCode headers body =
          .ok ⟨statusCode, headers, d, browserFilenameField headers⟩) ∧
      (cfg.validateStatus.getD defaultValidateStatus statusCode = false →
        browserOnload cfg parse statusCode headers body =
          .error ⟨"Request failed with status code " ++ toString statusCode, none,
            some ⟨statusCode, headers, d, browserFilenameField headers⟩,
            some statusCode⟩)) := by
  refine ⟨?_, ?_, ?_⟩
  · intro hs
    simp [nodeOnResponseHeaders, hs]
  · intro hpd
    constructor
    · intro hv
      simp [nodeEndHandler, hpd, hv]
    · intro hv
      simp [nodeEndHandler, hpd, hv]
  · intro hpd
    constructor
    · intro hv
      simp [browserOnload, hpd, hv]
    · intro hv
      simp [browserOnload, hpd, hv]

/-- Witness for C5 amended: an HTTP 500 with `responseType: 'stream'`
resolves with the live stream, while the buffered handler for the same
status rejects with the null-coded error carrying the response. -/
theorem claim_C5_amended_witness :
    nodeOnResponseHeaders { responseType := some .stream } 500 [] =
      some ⟨500, [], .stream, none⟩ ∧
    nodeEndHandler { responseType := some .stream } (fun _ => none) 500 [] "x" =
      .error ⟨"Request failed with status code 500", none,
        some ⟨500, [], .buffer "x", none⟩, some 500⟩ := by
  have h := claim_C5_amended { responseType := some .stream } (fun _ => none)
    500 [] "x" (.buffer "x")
  exact ⟨by simpa using h.1 rfl, by simpa using (h.2.1 rfl).2 rfl⟩

/-- Claim C2 counterexample: for the same logical request (default
configuration, identical status 200, identical headers carrying a
Content-Disposition filename, identical body `"hi"`) the two backends
produce unequal success Responses — the browser backend extracts
`filename = "report.pdf"` while the node backend never sets a filename. -/
theorem claim_C2_counterexample :
    nodeEndHandler {} (fun _ => none) 200 cdHeaders "hi" =
      .ok ⟨200, cdHeaders, .text "hi", none⟩ ∧
    browserOnload {} (fun _ => none) 200 cdHeaders "hi" =
      .ok ⟨200, cdHeaders, .text "hi", some "report.pdf"⟩ ∧
    (⟨200, cdHeaders, .text "hi", none⟩ : HttpResponseM) ≠
      ⟨200, cdHeaders, .text "hi", some "report.pdf"⟩ :=
  ⟨rfl, rfl, fun h => Option.noConfusion (congrArg HttpResponseM.filename h)⟩

/-- Claim C2 amended: the two backends are not observably identical — the
browser backend attaches a filename extracted from Content-Disposition
while the node backend never sets one.  A node success response always has
`filename = none`; a browser success response carries exactly the
extraction result; and whenever the extraction yields nothing, the status
is nonzero, and both decoders agree on the data, the two backends produce
the same outcome (equal Response on success and equal null-coded
validation error on failure). -/
theorem claim_C2_amended (cfg : Config) (parse : String → Option Json)
    (statusCode : Nat) (headers : List (String × String)) (body : String)
    (d : RespData) (r : HttpResponseM) :
    (nodeEndHandler cfg parse statusCode headers body = .ok r → r.filename = none) ∧
    (browserOnload cfg parse statusCode headers body = .ok r →
      r.filename = browserFilenameField headers) ∧
    (statusCode ≠ 0 → browserFilenameField headers = none →
      nodeParseData cfg parse ((headerLookup headers "content-type").getD "") body = .ok d →
      browserParseResponse cfg parse ((headerLookup headers "content-type").getD "") body =
        .ok d →
      nodeEndHandler cfg parse statusCode headers body =
        browserOnload cfg parse statusCode headers body) := by
  refine ⟨?_, ?_, ?_⟩
  · intro h
    cases hp : nodeParseData cfg parse ((headerLookup headers "content-type").getD "") body with
    | error u => simp [nodeEndHandler, hp] at h
    | ok d0 =>
      cases hb : cfg.validateStatus.getD defaultValidateStatus
          (if statusCode = 0 then 200 else statusCode) with
      | false =>
        simp only [nodeEndHandler, hp, hb] at h
        simp at h
      | true =>
        simp only [nodeEndHandler, hp, hb] at h
        simp only [if_true] at h
        cases h
        rfl
  · intro h
    cases hp : browserParseResponse cfg parse
        ((headerLookup headers "content-type").getD "") body with
    | error u => simp [browserOnload, hp] at h
    | ok d0 =>
      cases hb : cfg.validateStatus.getD defaultValidateStatus statusCode with
      | false =>
        simp only [browserOnload, hp, hb] at h
        simp at h
      | true =>
        simp only [browserOnload, hp, hb] at h
        simp only [if_true] at h
        cases h
        rfl
  · intro h0 hfn hpn hpb
    simp only [nodeEndHandler, browserOnload, hpn, hpb, if_neg h0, hfn]

/-- Witness for C2 amended: with no Content-Disposition header and a plain
text body both backends produce the identical success Response. -/
theorem claim_C2_amended_witness :
    nodeEndHandler {} (fun _ => none) 200 [] "hi" =
      browserOnload {} (fun _ => none) 200 [] "hi" :=
  (claim_C2_amended {} (fun _ => none) 200 [] "hi" (.text "hi")
    ⟨200, [], .text "hi", none⟩).2.2 (by decide) rfl rfl rfl

/-- A content-type containing `application/json` or
`application/vnd.api+json` also contains `json` case-insensitively, so
`isBinaryContentType` rejects it. -/
theorem json_ct_not_binary {ct : String}
    (h : strContains ct "application/json" = true ∨
      strContains ct "application/vnd.api+json" = true) :
    isBinaryContentType ct = false := by
  have hj : containsCI ct "json" = true := by
    rcases h with h | h
    · have h1 : "application/json".data <:+: ct.data := of_decide_eq_true h
      have h2 := h1.map Char.toLower
      have h3 : "json".data <:+: "application/json".data.map Char.toLower := by decide
      exact decide_eq_true (h3.trans h2)
    · have h1 : "application/vnd.api+json".data <:+: ct.data := of_decide_eq_true h
      have h2 := h1.map Char.toLower
      have h3 : "json".data <:+: "application/vnd.api+json".data.map Char.toLower := by
        decide
      exact decide_eq_true (h3.trans h2)
  simp [isBinaryContentType, hj]

/-- Claim C8 counterexample: in the browser backend a whitespace-only JSON
body — non-empty, and unparseable by the platform JSON parser — decodes to
`null` instead of rejecting with `ERR_PARSE`, because `parseResponse`
treats a blank `responseText` like an empty one. -/
theorem claim_C8_counterexample :
    (" " : String) ≠ "" ∧
    (fun _ => (none : Option Json)) " " = none ∧
    browserParseResponse {} (fun _ => none) "application/json" " " = .ok (.json .null) :=
  ⟨by decide, rfl, by simp +decide [browserParseResponse, xhrResponseType, jsTrim, jsIsWs]⟩

/-- Claim C8 amended: for a content-type containing `application/json` (or
`application/vnd.api+json`) and a responseType that is not
stream/blob/arraybuffer — and, in the browser backend, a content-type not
also matching its binary patterns — an empty body (browser: an empty or
whitespace-only body) decodes to `null`; any other body decodes to its
platform JSON parse; and a parse failure rejects the attempt with
`ERR_PARSE` carrying the raw response text and the status in the partial
response on the error. -/
theorem claim_C8_amended (cfg : Config) (parse : String → Option Json)
    (statusCode : Nat) (headers : List (String × String)) (body : String)
    (ct : String) (j : Json)
    (hct : strContains ct "application/json" = true ∨
      strContains ct "application/vnd.api+json" = true)
    (hrt : cfg.responseType ≠ some .stream ∧ cfg.responseType ≠ some .blob ∧
      cfg.responseType ≠ some .arraybuffer) :
    (nodeParseData cfg parse ct "" = .ok (.json .null)) ∧
    (body ≠ "" → parse body = some j → nodeParseData cfg parse ct body = .ok (.json j)) ∧
    (body ≠ "" → parse body = none →
      (headerLookup headers "content-type").getD "" = ct →
      nodeEndHandler cfg parse statusCode headers body =
        .error ⟨"Failed to parse response", some "ERR_PARSE",
          some ⟨if statusCode = 0 then 200 else statusCode, headers, .text body, none⟩,
          some (if statusCode = 0 then 200 else statusCode)⟩) ∧
    (strContains ct "application/octet-stream" = false →
      strContains ct "application/pdf" = false →
      strStartsWith ct "image/" = false → strStartsWith ct "audio/" = false →
      strStartsWith ct "video/" = false →
      (jsTrim body = "" → browserParseResponse cfg parse ct body = .ok (.json .null)) ∧
      (jsTrim body ≠ "" → parse body = some j →
        browserParseResponse cfg parse ct body = .ok (.json j)) ∧
      (jsTrim body ≠ "" → parse body = none →
        (headerLookup headers "content-type").getD "" = ct →
        browserOnload cfg parse statusCode headers body =
          .error ⟨"Failed to parse response", some "ERR_PARSE",
            some ⟨statusCode, headers, .text body, none⟩, some statusCode⟩)) := by
  have hbin := json_ct_not_binary hct
  have hnode : ∀ b, nodeParseData cfg parse ct b =
      (if b = "" then .ok (.json .null) else
        match parse b with
        | some j0 => .ok (.json j0)
        | none => .error ()) := by
    intro b
    rcases hct with h | h <;>
      simp [nodeParseData, hrt.1, hrt.2.1, hrt.2.2, hbin, h]
  refine ⟨?_, ?_, ?_, ?_⟩
  · simp [hnode ""]
  · intro hb hp
    simp [hnode body, hb, hp]
  · intro hb hp hcteq
    have hthis := hnode body
    rw [← hcteq] at hthis
    simp only [nodeEndHandler, hthis, if_neg hb, hp]
  · intro h1 h2 h3 h4 h5
    have hxrt : xhrResponseType cfg = some .text := by
      rcases hc : cfg.responseType with _ | rt
      · simp [xhrResponseType, hc]
      · cases rt <;> simp_all [xhrResponseType]
    have hbrowser : ∀ b, browserParseResponse cfg parse ct b =
        (if b = "" ∨ jsTrim b = "" then .ok (.json .null) else
          match parse b with
          | some j0 => .ok (.json j0)
          | none => .error ()) := by
      intro b
      rcases hct with h | h <;>
        simp [browserParseResponse, hxrt, h1, h2, h3, h4, h5, h]
    have htrim : jsTrim "" = "" := rfl
    refine ⟨?_, ?_, ?_⟩
    · intro hb
      simp [hbrowser body, hb]
    · intro hb hp
      have hb0 : body ≠ "" := fun h0 => hb (h0 ▸ htrim)
      simp [hbrowser body, hb, hb0, hp]
    · intro hb hp hcteq
      have hb0 : body ≠ "" := fun h0 => hb (h0 ▸ htrim)
      have hthis := hbrowser body
      rw [← hcteq] at hthis
      simp only [browserOnload, hthis, hb, hb0, hp]
      simp

/-- Witness for C8 amended: a parseable non-empty JSON body decodes to its
parse in both backends. -/
theorem claim_C8_amended_witness :
    nodeParseData {} (fun _ => some (Json.bool true)) "application/json" "true" =
      .ok (.json (.bool true)) ∧
    browserParseResponse {} (fun _ => some (Json.bool true)) "application/json" "true" =
      .ok (.json (.bool true)) := by
  have h := claim_C8_amended {} (fun _ => some (Json.bool true)) 200
    [("content-type", "application/json")] "true" "application/json" (.bool true)
    (Or.inl (by decide)) (by simp)
  exact ⟨h.2.1 (by decide) rfl,
    (h.2.2.2 (by decide) (by decide) (by decide) (by decide) (by decide)).2.1
      (by decide) rfl⟩

/-! ## `URLSearchParams.set` lemmas (shared, claim C6) -/

theorem uspSet_lookup_self (l : List (String × String)) (k v : String) :
    (uspSet l k v).lookup k = some v := by
  induction l with
  | nil => simp [uspSet, List.lookup]
  | cons p rest ih =>
    obtain ⟨k', v'⟩ := p
    by_cases h : k' = k
    · subst h
      simp [uspSet, List.lookup]
    · have hb : (k == k') = false := beq_eq_false_iff_ne.mpr (Ne.symm h)
      simp [uspSet, h, List.lookup, hb, ih]

theorem lookup_removeKey (t : List (String × String)) (k k0 : String) (h : k0 ≠ k) :
    (removeKey t k).lookup k0 = t.lookup k0 := by
  induction t with
  | nil => simp [removeKey]
  | cons p rest ih =>
    obtain ⟨a, b⟩ := p
    by_cases ha : a = k
    · subst ha
      have hb : (k0 == a) = false := beq_eq_false_iff_ne.mpr h
      simp [removeKey, List.lookup, hb, ih]
    · by_cases hk0 : k0 = a
      · subst hk0
        simp [removeKey, ha, List.lookup]
      · have hb : (k0 == a) = false := beq_eq_false_iff_ne.mpr hk0
        simp [removeKey, ha, List.lookup, hb, ih]

theorem uspSet_lookup_ne (l : List (String × String)) (k v k0 : String) (h : k ≠ k0) :
    (uspSet l k v).lookup k0 = l.lookup k0 := by
  induction l with
  | nil =>
    have hb : (k0 == k) = false := beq_eq_false_iff_ne.mpr (Ne.symm h)
    simp [uspSet, List.lookup, hb]
  | cons p rest ih =>
    obtain ⟨k', v'⟩ := p
    by_cases hk : k' = k
    · subst hk
      have hb : (k0 == k') = false := beq_eq_false_iff_ne.mpr (Ne.symm h)
      simp [uspSet, List.lookup, hb, lookup_removeKey rest k' k0 (Ne.symm h)]
    · by_cases hk0 : k0 = k'
      · subst hk0
        simp [uspSet, hk, List.lookup]
      · have hb : (k0 == k') = false := beq_eq_false_iff_ne.mpr hk0
        simp [uspSet, hk, List.lookup, hb, ih]

theorem keyEntries_removeKey (t : List (String × String)) (k k0 : String) (h : k ≠ k0) :
    keyEntries (removeKey t k) k0 = keyEntries t k0 := by
  induction t with
  | nil => simp [removeKey]
  | cons p rest ih =>
    obtain ⟨a, b⟩ := p
    by_cases ha : a = k
    · subst ha
      have ha0 : ¬(a = k0) := fun hh => h (hh ▸ rfl)
      simp [removeKey, keyEntries, ha0, ih]
    · by_cases hk0 : a = k0
      · subst hk0
        simp [removeKey, ha, keyEntries, ih]
      · simp [removeKey, ha, keyEntries, hk0, ih]

theorem uspSet_keyEntries_ne (l : List (String × String)) (k v k0 : String) (h : k ≠ k0) :
    keyEntries (uspSet l k v) k0 = keyEntries l k0 := by
  induction l with
  | nil => simp [uspSet, keyEntries, h]
  | cons p rest ih =>
    obtain ⟨k', v'⟩ := p
    by_cases hk : k' = k
    · subst hk
      simp [uspSet, keyEntries, h, keyEntries_removeKey rest k' k0 h]
    · by_cases hk0 : k' = k0
      · subst hk0
        simp [uspSet, hk, keyEntries, ih]
      · simp [uspSet, hk, keyEntries, hk0, ih]

theorem foldlUsp_lookup_not_mem (k0 : String) :
    ∀ (ps : List (String × Json)) (E : List (String × String)),
      (∀ kv ∈ ps, kv.1 ≠ k0) →
      (ps.foldl (fun acc kv => uspSet acc kv.1 (browserParamString kv.2)) E).lookup k0 =
        E.lookup k0 := by
  intro ps
  induction ps with
  | nil => intro E _; rfl
  | cons kv rest ih =>
    intro E h
    rw [List.foldl_cons,
      ih (uspSet E kv.1 (browserParamString kv.2))
        (fun x hx => h x (List.mem_cons_of_mem _ hx)),
      uspSet_lookup_ne E kv.1 (browserParamString kv.2) k0 (h kv (List.mem_cons_self _ _))]

theorem foldlUsp_keyEntries_not_mem (k0 : String) :
    ∀ (ps : List (String × Json)) (E : List (String × String)),
      (∀ kv ∈ ps, kv.1 ≠ k0) →
      keyEntries (ps.foldl (fun acc kv => uspSet acc kv.1 (browserParamString kv.2)) E) k0 =
        keyEntries E k0 := by
  intro ps
  induction ps with
  | nil => intro E _; rfl
  | cons kv rest ih =>
    intro E h
    rw [List.foldl_cons,
      ih (uspSet E kv.1 (browserParamString kv.2))
        (fun x hx => h x (List.mem_cons_of_mem _ hx)),
      uspSet_keyEntries_ne E kv.1 (browserParamString kv.2) k0 (h kv (List.mem_cons_self _ _))]

theorem foldlUsp_lookup_mem (k0 : String) (v : Json) :
    ∀ (ps : List (String × Json)) (E : List (String × String)),
      (ps.map Prod.fst).Nodup → (k0, v) ∈ ps →
      (ps.foldl (fun acc kv => uspSet acc kv.1 (browserParamString kv.2)) E).lookup k0 =
        some (browserParamString v) := by
  intro ps
  induction ps with
  | nil => intro E _ hmem; cases hmem
  | cons kv rest ih =>
    intro E hnd hmem
    rw [List.foldl_cons]
    rcases List.mem_cons.mp hmem with heq | hmem'
    · cases heq
      have hhead : k0 ∉ rest.map Prod.fst := by
        have h1 : (k0 :: rest.map Prod.fst).Nodup := by simpa using hnd
        exact (List.nodup_cons.mp h1).1
      have hrest : ∀ x ∈ rest, x.1 ≠ k0 := by
        intro x hx hx1
        exact hhead (hx1 ▸ List.mem_map_of_mem Prod.fst hx)
      rw [foldlUsp_lookup_not_mem k0 rest _ hrest, uspSet_lookup_self]
    · have hnd' : (rest.map Prod.fst).Nodup := by
        have h1 : (kv.1 :: rest.map Prod.fst).Nodup := by simpa using hnd
        exact (List.nodup_cons.mp h1).2
      exact ih (uspSet E kv.1 (browserParamString kv.2)) hnd' hmem'

/-- Claim C6 counterexample: the node backend does not merge — for the URL
query `a=1` and the mapping `{b: "2"}` the final query is exactly `b=2`:
the mapping replaced the whole query and the existing key `a`, not named
in the mapping, was dropped instead of preserved. -/
theorem claim_C6_counterexample :
    parseQuery (nodeFinalQuery "a=1" (some [("b", Json.str "2")])) = [("b", "2")] ∧
    (parseQuery (nodeFinalQuery "a=1" (some [("b", Json.str "2")]))).lookup "a" = none :=
  ⟨rfl, rfl⟩

/-- Claim C6 amended: in the browser backend the final query is the
key-wise merge of the URL's existing query string and the mapping —
mapping values overwrite same-named existing keys, and existing keys not
named in the mapping are preserved (with their values and multiplicity).
In the node backend, when `params` is given the existing query string is
discarded entirely: the final query depends only on the mapping; the
existing query survives only when `params` is absent. -/
theorem claim_C6_amended (existing : String) (ps : List (String × Json)) (k : String) :
    (∀ e1 e2 : String, nodeFinalQuery e1 (some ps) = nodeFinalQuery e2 (some ps)) ∧
    (nodeFinalQuery existing none = existing) ∧
    ((∀ kv ∈ ps, kv.1 ≠ k) →
      keyEntries (browserCombinedPairs (parseQuery existing) (some ps)) k =
        keyEntries (parseQuery existing) k) ∧
    (∀ v, (ps.map Prod.fst).Nodup → (k, v) ∈ ps →
      (browserCombinedPairs (parseQuery existing) (some ps)).lookup k =
        some (browserParamString v)) := by
  refine ⟨fun e1 e2 => rfl, rfl, ?_, ?_⟩
  · intro h
    exact foldlUsp_keyEntries_not_mem k ps (parseQuery existing) h
  · intro v hnd hmem
    exact foldlUsp_lookup_mem k v ps (parseQuery existing) hnd hmem

/-- Witness for C6 amended: merging `c=7&a=1` with the mapping
`{b: "2", a: "9"}` — `a` is overwritten to `9`, and the key `c`, absent
from the mapping, keeps its entry. -/
theorem claim_C6_amended_witness :
    keyEntries (browserCombinedPairs (parseQuery "c=7&a=1")
        (some [("b", .str "2"), ("a", .str "9")])) "c" =
      [("c", "7")] ∧
    (browserCombinedPairs (parseQuery "c=7&a=1")
        (some [("b", .str "2"), ("a", .str "9")])).lookup "a" = some "9" := by
  constructor
  · rw [(claim_C6_amended "c=7&a=1" [("b", .str "2"), ("a", .str "9")] "c").2.2.1
      (by decide)]
    rfl
  · rw [(claim_C6_amended "c=7&a=1" [("b", .str "2"), ("a", .str "9")] "a").2.2.2
      (.str "9") (by decide) (by simp)]
    rfl

/-! ## Header-assignment lemmas (shared, claims C7 and C10) -/

theorem setHeader_lookup_self (hs : List (String × String)) (k v : String) :
    headerLookup (setHeader hs k v) k = some v := by
  induction hs with
  | nil => simp [setHeader, headerLookup, List.lookup]
  | cons p rest ih =>
    obtain ⟨k', v'⟩ := p
    by_cases h : k' = k
    · subst h
      simp [setHeader, headerLookup, List.lookup]
    · have hb : (k == k') = false := beq_eq_false_iff_ne.mpr (Ne.symm h)
      simpa [setHeader, h, headerLookup, List.lookup, hb] using ih

theorem setHeader_lookup_ne (hs : List (String × String)) (k v k0 : String) (h : k ≠ k0) :
    headerLookup (setHeader hs k v) k0 = headerLookup hs k0 := by
  induction hs with
  | nil =>
    have hb : (k0 == k) = false := beq_eq_false_iff_ne.mpr (Ne.symm h)
    simp [setHeader, headerLookup, List.lookup, hb]
  | cons p rest ih =>
    obtain ⟨k', v'⟩ := p
    by_cases hk : k' = k
    · subst hk
      have hb : (k0 == k') = false := beq_eq_false_iff_ne.mpr (Ne.symm h)
      simp [setHeader, headerLookup, List.lookup, hb]
    · by_cases hk0 : k0 = k'
      · subst hk0
        simp [setHeader, hk, headerLookup, List.lookup]
      · have hb : (k0 == k') = false := beq_eq_false_iff_ne.mpr hk0
        simpa [setHeader, hk, headerLookup, List.lookup, hb] using ih

/-- Claim C7: for a request body that is a JS object (not multipart form,
not a buffer, not a string, not null/absent): the node backend's wire body
is exactly the JSON encoding of the object (sent as UTF-8 text, with
Content-Length set to its UTF-8 byte length); `Content-Type` is set to
exactly `application/json` when the caller's headers carry no (truthy)
content-type; a non-empty content-type the caller set is left untouched.
In the browser backend a plain object body (for a body-sending method) is
sent as its JSON encoding, and the caller's header calls are never
modified — the codec only appends the `application/json` call when the
caller set no content-type. -/
theorem claim_C7_json_body (headers : List (String × String)) (j : Json) (cfg : Config)
    (fs : List (String × Json)) :
    ((nodeProcessBody headers (some (.obj j))).wire = some (Json.stringify j)) ∧
    (headerLookup (nodeProcessBody headers (some (.obj j))).headers "Content-Length" =
      some (toString (utf8Length (Json.stringify j)))) ∧
    (truthyStr (headerLookup headers "Content-Type") = false →
      headerLookup (nodeProcessBody headers (some (.obj j))).headers "Content-Type" =
        some "application/json") ∧
    (∀ ct, headerLookup headers "Content-Type" = some ct → ct ≠ "" →
      headerLookup (nodeProcessBody headers (some (.obj j))).headers "Content-Type" =
        some ct) ∧
    (cfg.body = some (.obj (Json.obj fs)) → isGetLikeMethod cfg = false →
      (browserPrepare cfg).sent = some (Json.stringify (Json.obj fs))) ∧
    (cfg.body = some (.obj (Json.obj fs)) →
      (browserPrepare cfg).headerCalls =
        cfg.headers.getD [] ++
          (if truthyStr ((cfg.headers.getD []).lookup "Content-Type") = false
            then [("Content-Type", "application/json")] else [])) := by
  refine ⟨rfl, ?_, ?_, ?_, ?_, ?_⟩
  · simp only [nodeProcessBody]
    exact setHeader_lookup_self _ "Content-Length" _
  · intro htr
    simp only [nodeProcessBody]
    rw [setHeader_lookup_ne _ "Content-Length" _ "Content-Type" (by decide),
      setHeader_lookup_self]
    cases hl : headerLookup headers "Content-Type" with
    | none => simp [hl]
    | some v0 =>
      rw [hl] at htr
      simp [truthyStr] at htr
      simp [hl, htr]
  · intro ct hl hct
    simp only [nodeProcessBody]
    rw [setHeader_lookup_ne _ "Content-Length" _ "Content-Type" (by decide),
      setHeader_lookup_self]
    simp [hl, hct]
  · intro hb hm
    simp [browserPrepare, hb, hm, browserIsJSON, browserBodyJsonText]
  · intro hb
    cases htr : truthyStr ((cfg.headers.getD []).lookup "Content-Type") with
    | false => simp [browserPrepare, hb, browserIsJSON, htr]
    | true => simp [browserPrepare, hb, browserIsJSON, htr]

/-- Witness for C7: an object body `{a: 1}` with no caller headers is
wired as the JSON text with `Content-Type: application/json` on both
backends. -/
theorem claim_C7_json_body_witness :
    (nodeProcessBody [] (some (.obj (Json.obj [("a", Json.num 1)])))).wire =
      some "\x7b\"a\":1\x7d" ∧
    headerLookup (nodeProcessBody [] (some (.obj (Json.obj [("a", Json.num 1)])))).headers
      "Content-Type" = some "application/json" ∧
    (browserPrepare { method := some "post", body := some (.obj (Json.obj [("a", Json.num 1)])) }).sent =
      some "\x7b\"a\":1\x7d" := by
  have h := claim_C7_json_body [] (Json.obj [("a", Json.num 1)])
    { method := some "post", body := some (.obj (Json.obj [("a", Json.num 1)])) }
    [("a", Json.num 1)]
  refine ⟨?_, h.2.2.1 rfl, ?_⟩
  · rw [h.1]
    rfl
  · rw [h.2.2.2.2.1 rfl (by decide)]
    rfl

/-- Claim C10 counterexample: a browser GET request with an object body
sends no body, but the `application/json` content-type adjustment the body
implies is still applied to the wire request — contradicting the claim
that no such adjustment happens. -/
theorem claim_C10_counterexample :
    (browserPrepare { method := some "get", body := some (.obj (Json.obj [("a", Json.num 1)])) }).sent = none ∧
    ("Content-Type", "application/json") ∈
      (browserPrepare { method := some "get", body := some (.obj (Json.obj [("a", Json.num 1)])) }).headerCalls := by
  refine ⟨rfl, ?_⟩
  show ("Content-Type", "application/json") ∈ [("Content-Type", "application/json")]
  exact List.mem_singleton.mpr rfl

/-- Claim C10 amended: in the browser backend, for every request whose
method (after defaulting to GET and uppercasing) is GET or HEAD, the
request is sent with no body even when `config.body` is set — but the
header calls are entirely independent of the method, so the
`application/json` content-type adjustment an object body implies is still
applied to the wire request. -/
theorem claim_C10_amended (cfg : Config) (fs : List (String × Json)) :
    (isGetLikeMethod cfg = true →
      (browserPrepare cfg).sent = none ∧ (browserPrepare cfg).sentForm = false) ∧
    ((browserPrepare cfg).headerCalls =
      (browserPrepare { cfg with method := some "POST" }).headerCalls) ∧
    (cfg.body = some (.obj (Json.obj fs)) →
      truthyStr ((cfg.headers.getD []).lookup "Content-Type") = false →
      ("Content-Type", "application/json") ∈ (browserPrepare cfg).headerCalls) := by
  refine ⟨?_, ?_, ?_⟩
  · intro hm
    simp [browserPrepare, hm]
  · simp [browserPrepare]
  · intro hb htr
    simp [browserPrepare, hb, browserIsJSON, htr]

/-- Witness for C10 amended: the GET-with-object-body configuration sends
nothing yet sets `Content-Type: application/json`. -/
theorem claim_C10_amended_witness :
    (browserPrepare { method := some "get", body := some (.obj (Json.obj [("b", Json.bool true)])) }).sent = none ∧
    ("Content-Type", "application/json") ∈
      (browserPrepare { method := some "get", body := some (.obj (Json.obj [("b", Json.bool true)])) }).headerCalls := by
  have h := claim_C10_amended
    { method := some "get", body := some (.obj (Json.obj [("b", Json.bool true)])) }
    [("b", Json.bool true)]
  exact ⟨(h.1 (by decide)).1, h.2.2 rfl rfl⟩

end Setu
